import Mathlib

/-!
Verification of the simulation/world core of the rust-citysim repository:
storage slots (`src/game/src/game/building/storage.rs`), the unit spawn
pool and world spawn/despawn paths (`src/game/src/game/sim/world.rs`), and
the fixed-step scheduler and query helpers (`src/src/game/sim/mod.rs`).

Rust `u32`/`usize` values are embedded as `Nat` (no operation here reaches
the wrap-around range under the stated hypotheses); fallible operations
(Rust panics: out-of-bounds indexing, `unwrap`, explicit `panic!`) are
embedded as `Option`/`Except` with `none`/`error` for the panic.
-/

namespace CitySim

/-- First index of the list satisfying `p` (the early-return linear scans of
the Rust code: `find_free_slot`, `find_resource_slot`, `BitVec::first_zero`). -/
def firstIdx {α : Type} (p : α → Bool) : List α → Option Nat
  | [] => none
  | a :: rest => if p a then some 0 else (firstIdx p rest).map (· + 1)

theorem firstIdx_eq_some {α : Type} (p : α → Bool) :
    ∀ (l : List α) (i : Nat), firstIdx p l = some i →
      ∃ h : i < l.length, p (l.get ⟨i, h⟩) ∧ ∀ j (hj : j < l.length), j < i → ¬ p (l.get ⟨j, hj⟩) := by
  intro l
  induction l with
  | nil => intro i h; simp [firstIdx] at h
  | cons a rest ih =>
    intro i h
    by_cases hpa : p a
    · simp [firstIdx, hpa] at h
      subst h
      exact ⟨by simp, by simpa using hpa, fun j hj hji => by omega⟩
    · simp [firstIdx, hpa] at h
      obtain ⟨i', hi', rfl⟩ := h
      obtain ⟨hlt, hp, hmin⟩ := ih i' hi'
      refine ⟨by simpa using Nat.succ_lt_succ hlt, by simpa using hp, ?_⟩
      intro j hj hji
      match j with
      | 0 => simpa using hpa
      | j' + 1 =>
        exact hmin j' (by simpa using Nat.lt_of_succ_lt_succ hj) (Nat.lt_of_succ_lt_succ hji)

theorem firstIdx_eq_none {α : Type} (p : α → Bool) :
    ∀ (l : List α), firstIdx p l = none ↔ ∀ a ∈ l, ¬ p a := by
  intro l
  induction l with
  | nil => simp [firstIdx]
  | cons a rest ih =>
    by_cases hpa : p a
    · simp [firstIdx, hpa]
    · simp [firstIdx, hpa, ih]

theorem firstIdx_of_first {α : Type} (p : α → Bool) :
    ∀ (l : List α) (i : Nat) (h : i < l.length), p (l.get ⟨i, h⟩) →
      (∀ j (hj : j < l.length), j < i → ¬ p (l.get ⟨j, hj⟩)) → firstIdx p l = some i := by
  intro l
  induction l with
  | nil => intro i h; simp at h
  | cons a rest ih =>
    intro i h hp hmin
    match i with
    | 0 => simp [firstIdx, show p a by simpa using hp]
    | i' + 1 =>
      have hpa : ¬ p a := by simpa using hmin 0 (by simp) (Nat.succ_pos _)
      have : firstIdx p rest = some i' := by
        refine ih i' (by simpa using Nat.lt_of_succ_lt_succ h) (by simpa using hp) ?_
        intro j hj hji
        simpa using hmin (j + 1) (by simpa using Nat.succ_lt_succ hj) (Nat.succ_lt_succ hji)
      simp [firstIdx, hpa, this]

/-- Pointwise agreement of the predicates on two same-length lists keeps the
first matching index. -/
theorem firstIdx_congr {α β : Type} (p : α → Bool) (q : β → Bool) :
    ∀ (l : List α) (m : List β), l.length = m.length →
      (∀ j (hj : j < l.length) (hj' : j < m.length), p (l.get ⟨j, hj⟩) = q (m.get ⟨j, hj'⟩)) →
      firstIdx p l = firstIdx q m := by
  intro l
  induction l with
  | nil =>
    intro m hlen _
    cases m with
    | nil => rfl
    | cons b mrest => simp at hlen
  | cons a rest ih =>
    intro m hlen hpt
    cases m with
    | nil => simp at hlen
    | cons b mrest =>
      have h0 : p a = q b := by simpa using hpt 0 (by simp) (by simp)
      have hr : firstIdx p rest = firstIdx q mrest := by
        refine ih mrest (by simpa using hlen) ?_
        intro j hj hj'
        simpa using hpt (j + 1) (by simpa using Nat.succ_lt_succ hj)
          (by simpa using Nat.succ_lt_succ hj')
      by_cases hpa : p a
      · simp [firstIdx, hpa, h0 ▸ hpa]
      · have hqb : ¬ q b := h0 ▸ hpa
        simp [firstIdx, hpa, hqb, hr]

-- ----------------------------------------------
-- Resource stock (game/sim/resources.rs is not part of the sources)
-- ----------------------------------------------

/-- Modelled from the spec: `ResourceKind` is "a bitmask enum over resource
types (one bit per concrete kind)". Embedded as the raw bitmask. -/
abbrev ResourceKind := Nat

/-- Concrete single-bit resource kinds used by the spec scenarios. -/
def ResourceKind.Rice : ResourceKind := 1

def ResourceKind.Meat : ResourceKind := 2

def ResourceKind.Fish : ResourceKind := 4

/-- Exactly one bit set (`kind.bits().count_ones() == 1`). -/
def singleBitKind (k : Nat) : Bool := k ≠ 0 && (k &&& (k - 1)) == 0

/-- Modelled from the spec: one `(kind, count)` pair of a `ResourceStock`. -/
structure StockItem where
  kind : ResourceKind
  count : Nat
deriving DecidableEq

/-- Modelled from the spec: `ResourceStock` is "an ordered list of
`(kind, count)` pairs restricted to an accepted-kinds allow-list; at most
one entry per kind" (`game/sim/resources.rs` is not among the sources). -/
abbrev ResourceStock := List StockItem

/-- Modelled from the spec: `ResourceStock::find(kind)` returns the index and
item of the first entry of that kind, `None` when the kind is absent. -/
def stockFind : ResourceStock → ResourceKind → Option (Nat × StockItem)
  | [], _ => none
  | it :: rest, k =>
    if it.kind = k then some (0, it)
    else (stockFind rest k).map (fun p => (p.1 + 1, p.2))

/-- Modelled from the spec: `ResourceStock::count(kind)`. -/
def stockCount (st : ResourceStock) (k : ResourceKind) : Nat :=
  match stockFind st k with
  | some (_, it) => it.count
  | none => 0

/-- Modelled from the spec: `ResourceStock::set(index, item)`. -/
def stockSet (st : ResourceStock) (index : Nat) (item : StockItem) : ResourceStock :=
  st.set index item

/-- Modelled from the spec: `ResourceStock::add(kind)` adds one unit of the
kind, keeping at most one entry per kind. -/
def stockAdd (st : ResourceStock) (k : ResourceKind) : ResourceStock :=
  match stockFind st k with
  | some (i, it) => st.set i ⟨k, it.count + 1⟩
  | none => st ++ [⟨k, 1⟩]

/-- Modelled from the spec: `ResourceStock::with_accepted_list` starts every
accepted kind at count 0. -/
def withAcceptedList (accepted : List ResourceKind) : ResourceStock :=
  accepted.map (fun k => ⟨k, 0⟩)

/-- Total number of units held by a stock. -/
def stockTotal (st : ResourceStock) : Nat :=
  (st.map (fun it => it.count)).sum

-- ----------------------------------------------
-- StorageSlot (storage.rs)
-- ----------------------------------------------

structure StorageSlot where
  stock : ResourceStock
  allocated_resource_kind : Option ResourceKind
deriving DecidableEq

/-- `StorageSlot::is_free`. -/
def StorageSlot.is_free (sl : StorageSlot) : Bool :=
  sl.allocated_resource_kind.isNone

/-- `StorageSlot::is_full`. -/
def StorageSlot.is_full (sl : StorageSlot) (slot_capacity : Nat) : Bool :=
  match sl.allocated_resource_kind with
  | some kind => decide (stockCount sl.stock kind ≥ slot_capacity)
  | none => false

/-- `StorageSlot::remaining_capacity`. -/
def StorageSlot.remaining_capacity (sl : StorageSlot) (slot_capacity : Nat) : Nat :=
  match sl.allocated_resource_kind with
  | some kind => slot_capacity - stockCount sl.stock kind
  | none => slot_capacity

/-- `StorageSlot::resource_index_and_count`; `none` is the panic on a kind
missing from the stock. -/
def StorageSlot.resource_index_and_count (sl : StorageSlot) (kind : ResourceKind) :
    Option (Nat × Nat) :=
  (stockFind sl.stock kind).map (fun p => (p.1, p.2.count))

/-- `StorageSlot::set_resource_count`; `none` is the panic of the `unwrap`
on an unallocated slot. -/
def StorageSlot.set_resource_count (sl : StorageSlot) (index count : Nat) :
    Option StorageSlot :=
  match sl.allocated_resource_kind with
  | some kind => some { sl with stock := stockSet sl.stock index ⟨kind, count⟩ }
  | none => none

/-- `StorageSlot::increment_resource_count`; `none` is a panic (kind missing
from the stock, or a conflicting allocation). -/
def StorageSlot.increment_resource_count (sl : StorageSlot)
    (kind : ResourceKind) (add_amount slot_capacity : Nat) : Option (StorageSlot × Nat) :=
  match sl.resource_index_and_count kind with
  | none => none
  | some (index, prev_count) =>
    let count := min (prev_count + add_amount) slot_capacity
    match sl.allocated_resource_kind with
    | some allocated_kind =>
      if allocated_kind = kind then
        if count ≠ prev_count then
          (sl.set_resource_count index count).map (fun sl2 => (sl2, count))
        else some (sl, count)
      else none
    | none =>
      let sl1 := { sl with allocated_resource_kind := some kind }
      if count ≠ prev_count then
        (sl1.set_resource_count index count).map (fun sl2 => (sl2, count))
      else some (sl1, count)

/-- `StorageSlot::decrement_resource_count` (saturating subtraction, slot
released when the count reaches 0); `none` is a panic. -/
def StorageSlot.decrement_resource_count (sl : StorageSlot)
    (kind : ResourceKind) (sub_amount : Nat) : Option (StorageSlot × Nat) :=
  match sl.resource_index_and_count kind with
  | none => none
  | some (index, count0) =>
    if count0 ≠ 0 then
      let count := count0 - sub_amount
      match sl.allocated_resource_kind with
      | none => none
      | some allocated_kind =>
        if allocated_kind = kind then
          (sl.set_resource_count index count).map (fun sl2 =>
            if count = 0 then ({ sl2 with allocated_resource_kind := none }, count)
            else (sl2, count))
        else none
    else some (sl, count0)

-- ----------------------------------------------
-- StorageSlots (storage.rs)
-- ----------------------------------------------

def MAX_STORAGE_SLOTS : Nat := 8

structure StorageSlots where
  slots : List StorageSlot
  slot_capacity : Nat
deriving DecidableEq

/-- `StorageSlots::new`; `none` covers the explicit panic (zero slots, zero
capacity or empty accepted list) and the `ArrayVec` overflow past 8 slots. -/
def StorageSlots.new (resources_accepted : List ResourceKind)
    (num_slots slot_capacity : Nat) : Option StorageSlots :=
  if resources_accepted.isEmpty || num_slots = 0 || slot_capacity = 0 then none
  else if num_slots > MAX_STORAGE_SLOTS then none
  else some ⟨List.replicate num_slots ⟨withAcceptedList resources_accepted, none⟩, slot_capacity⟩

/-- `StorageSlots::slot_resource_count`; `none` is a panic (slot index out of
bounds or kind missing from the slot stock). -/
def StorageSlots.slot_resource_count (s : StorageSlots) (slot_index : Nat)
    (kind : ResourceKind) : Option Nat :=
  match s.slots[slot_index]? with
  | none => none
  | some sl => (sl.resource_index_and_count kind).map (fun p => p.2)

/-- `StorageSlots::increment_slot_resource_count`. -/
def StorageSlots.increment_slot_resource_count (s : StorageSlots)
    (slot_index : Nat) (kind : ResourceKind) (add_amount : Nat) : Option (StorageSlots × Nat) :=
  match s.slots[slot_index]? with
  | none => none
  | some sl =>
    (sl.increment_resource_count kind add_amount s.slot_capacity).map
      (fun p => ({ s with slots := s.slots.set slot_index p.1 }, p.2))

/-- `StorageSlots::decrement_slot_resource_count`. -/
def StorageSlots.decrement_slot_resource_count (s : StorageSlots)
    (slot_index : Nat) (kind : ResourceKind) (sub_amount : Nat) : Option (StorageSlots × Nat) :=
  match s.slots[slot_index]? with
  | none => none
  | some sl =>
    (sl.decrement_resource_count kind sub_amount).map
      (fun p => ({ s with slots := s.slots.set slot_index p.1 }, p.2))

/-- `StorageSlots::find_free_slot`. -/
def StorageSlots.find_free_slot (s : StorageSlots) : Option Nat :=
  firstIdx (fun sl => sl.is_free) s.slots

/-- `StorageSlots::find_resource_slot`. -/
def StorageSlots.find_resource_slot (s : StorageSlots) (kind : ResourceKind) : Option Nat :=
  firstIdx (fun sl => sl.allocated_resource_kind == some kind) s.slots

/-- `StorageSlots::alloc_resource_slot`: prefer a slot already allocated to
the kind that is not full, else the first free slot. -/
def StorageSlots.alloc_resource_slot (s : StorageSlots) (kind : ResourceKind) : Option Nat :=
  match firstIdx (fun sl => sl.allocated_resource_kind == some kind
      && !(sl.is_full s.slot_capacity)) s.slots with
  | some slot_index => some slot_index
  | none => s.find_free_slot

/-- `StorageSlots::how_many_can_fit`. -/
def StorageSlots.how_many_can_fit (s : StorageSlots) (kind : ResourceKind) : Nat :=
  s.slots.foldl (fun count sl =>
    if sl.is_free then count + s.slot_capacity
    else match sl.allocated_resource_kind with
      | some allocated_kind =>
        if allocated_kind = kind then count + sl.remaining_capacity s.slot_capacity
        else count
      | none => count) 0

/-- `StorageSlots::receive_resources`: returns the number of added resources
(0 if no slot is available). -/
def StorageSlots.receive_resources (s : StorageSlots) (kind : ResourceKind)
    (count : Nat) : Option (StorageSlots × Nat) :=
  match s.alloc_resource_slot kind with
  | none => some (s, 0)
  | some slot_index =>
    match s.slot_resource_count slot_index kind with
    | none => none
    | some prev_count =>
      match s.increment_slot_resource_count slot_index kind count with
      | none => none
      | some (s2, new_count) => some (s2, new_count - prev_count)

-- ----------------------------------------------
-- StorageBuilding::shop (storage.rs)
-- ----------------------------------------------

/-- The second loop of `StorageBuilding::shop`: take one unit of each wanted
kind that has a slot, adding it to the basket and the returned kind-set when
the count actually dropped. -/
def shopTake : StorageSlots → ResourceStock → List ResourceKind → Nat →
    Option (StorageSlots × ResourceStock × Nat)
  | s, basket, [], kinds_added => some (s, basket, kinds_added)
  | s, basket, wanted :: rest, kinds_added =>
    match s.find_resource_slot wanted with
    | none => shopTake s basket rest kinds_added
    | some slot_index =>
      match s.slot_resource_count slot_index wanted with
      | none => none
      | some prev_count =>
        match s.decrement_slot_resource_count slot_index wanted 1 with
        | none => none
        | some (s2, new_count) =>
          if new_count < prev_count then
            shopTake s2 (stockAdd basket wanted) rest (kinds_added ||| wanted)
          else shopTake s2 basket rest kinds_added

/-- `StorageBuilding::shop`: with `all_or_nothing` set, first verify every
wanted kind has an allocated slot, aborting with the empty kind-set
otherwise; then take whatever is available. -/
def StorageBuilding.shop (s : StorageSlots) (shopping_basket : ResourceStock)
    (shopping_list : List ResourceKind) (all_or_nothing : Bool) :
    Option (StorageSlots × ResourceStock × Nat) :=
  if all_or_nothing && shopping_list.any (fun k => (s.find_resource_slot k).isNone) then
    some (s, shopping_basket, 0)
  else shopTake s shopping_basket shopping_list 0

-- ----------------------------------------------
-- Storage operation sequences (claims C1)
-- ----------------------------------------------

/-- The public mutating calls of the slot-capacity claim. -/
inductive StorageOp where
  | receive (kind : ResourceKind) (count : Nat)
  | decrement (slot_index : Nat) (kind : ResourceKind) (amount : Nat)
deriving DecidableEq

def applyStorageOp (s : StorageSlots) : StorageOp → Option StorageSlots
  | .receive kind count => (s.receive_resources kind count).map (fun p => p.1)
  | .decrement slot_index kind amount =>
    (s.decrement_slot_resource_count slot_index kind amount).map (fun p => p.1)

def runStorageOps (s : StorageSlots) : List StorageOp → Option StorageSlots
  | [] => some s
  | op :: rest =>
    match applyStorageOp s op with
    | none => none
    | some s2 => runStorageOps s2 rest

/-- The per-slot property claimed by the spec: the held count never exceeds
the capacity, and the slot is unallocated exactly when it holds nothing. -/
abbrev slotClaimInv (slot_capacity : Nat) (sl : StorageSlot) : Prop :=
  stockTotal sl.stock ≤ slot_capacity ∧
    (sl.allocated_resource_kind = none ↔ stockTotal sl.stock = 0)

abbrev storageClaimInv (s : StorageSlots) : Prop :=
  ∀ sl ∈ s.slots, slotClaimInv s.slot_capacity sl

-- ----------------------------------------------
-- Stock lemmas
-- ----------------------------------------------

theorem stockFind_some : ∀ (st : ResourceStock) (k : ResourceKind) (i : Nat) (it : StockItem),
    stockFind st k = some (i, it) →
    it.kind = k ∧ ∃ h : i < st.length, st.get ⟨i, h⟩ = it := by
  intro st
  induction st with
  | nil => intro k i it h; simp [stockFind] at h
  | cons a rest ih =>
    intro k i it h
    by_cases hk : a.kind = k
    · simp [stockFind, hk] at h
      obtain ⟨rfl, rfl⟩ := h
      exact ⟨hk, by simp, by simp⟩
    · simp [stockFind, hk] at h
      obtain ⟨i', hfind, rfl⟩ := h
      obtain ⟨hkind, hlt, hget⟩ := ih k i' it hfind
      exact ⟨hkind, by simpa using Nat.succ_lt_succ hlt, by simpa using hget⟩

theorem stockFind_none : ∀ (st : ResourceStock) (k : ResourceKind),
    stockFind st k = none ↔ ∀ it ∈ st, it.kind ≠ k := by
  intro st
  induction st with
  | nil => simp [stockFind]
  | cons a rest ih =>
    intro k
    by_cases hk : a.kind = k
    · simp [stockFind, hk]
    · simp [stockFind, hk, ih]

theorem stockFind_set : ∀ (st : ResourceStock) (k : ResourceKind) (i : Nat) (it : StockItem)
    (c : Nat), stockFind st k = some (i, it) →
    stockFind (st.set i ⟨k, c⟩) k = some (i, ⟨k, c⟩) := by
  intro st
  induction st with
  | nil => intro k i it c h; simp [stockFind] at h
  | cons a rest ih =>
    intro k i it c h
    by_cases hk : a.kind = k
    · simp [stockFind, hk] at h
      obtain ⟨rfl, rfl⟩ := h
      simp [List.set, stockFind]
    · simp [stockFind, hk] at h
      obtain ⟨i', hfind, rfl⟩ := h
      simpa [List.set, stockFind, hk] using ih k i' it c hfind

/-- All entries of the stock hold count 0. -/
def allZero (st : ResourceStock) : Prop :=
  ∀ j (hj : j < st.length), (st.get ⟨j, hj⟩).count = 0

/-- All entries but the one at index `i` hold count 0. -/
def zeroExcept (st : ResourceStock) (i : Nat) : Prop :=
  ∀ j (hj : j < st.length), j ≠ i → (st.get ⟨j, hj⟩).count = 0

theorem stockTotal_eq_zero_of_allZero : ∀ (st : ResourceStock), allZero st → stockTotal st = 0 := by
  intro st
  induction st with
  | nil => intro _; simp [stockTotal]
  | cons a rest ih =>
    intro hz
    have ha : a.count = 0 := hz 0 (by simp)
    have hr : stockTotal rest = 0 := by
      refine ih ?_
      intro j hj
      simpa using hz (j + 1) (by simpa using Nat.succ_lt_succ hj)
    simp [stockTotal] at hr ⊢
    exact ⟨ha, hr⟩

theorem stockTotal_eq_of_zeroExcept : ∀ (st : ResourceStock) (i : Nat) (h : i < st.length),
    zeroExcept st i → stockTotal st = (st.get ⟨i, h⟩).count := by
  intro st
  induction st with
  | nil => intro i h; simp at h
  | cons a rest ih =>
    intro i h hz
    match i with
    | 0 =>
      have hr : stockTotal rest = 0 := by
        refine stockTotal_eq_zero_of_allZero rest ?_
        intro j hj
        simpa using hz (j + 1) (by simpa using Nat.succ_lt_succ hj) (by omega)
      simp [stockTotal] at hr ⊢
      simp [hr]
    | i' + 1 =>
      have ha : a.count = 0 := hz 0 (by simp) (by omega)
      have hr := ih i' (by simpa using Nat.lt_of_succ_lt_succ h) (by
        intro j hj hji
        simpa using hz (j + 1) (by simpa using Nat.succ_lt_succ hj) (by omega))
      simp [stockTotal] at hr ⊢
      simpa [ha] using hr

-- ----------------------------------------------
-- The storage well-formedness invariant (claim C1)
-- ----------------------------------------------

/-- Strong per-slot invariant maintained by the storage code: a free slot is
entirely empty; an allocated slot holds a nonzero count of its allocated
kind, bounded by the capacity, in the entry `stockFind` locates, with every
other entry zero. -/
def slotWF (cap : Nat) (sl : StorageSlot) : Prop :=
  match sl.allocated_resource_kind with
  | none => allZero sl.stock
  | some k => ∃ i it, stockFind sl.stock k = some (i, it) ∧ it.count ≠ 0 ∧ it.count ≤ cap ∧
      zeroExcept sl.stock i

def slotsWF (s : StorageSlots) : Prop :=
  1 ≤ s.slot_capacity ∧ ∀ sl ∈ s.slots, slotWF s.slot_capacity sl
theorem increment_eq_of_alloc (sl : StorageSlot) (kind : ResourceKind) (amt cap idx : Nat)
    (it : StockItem) (hfind : stockFind sl.stock kind = some (idx, it))
    (halloc : sl.allocated_resource_kind = some kind) :
    sl.increment_resource_count kind amt cap =
      if min (it.count + amt) cap ≠ it.count then
        some (⟨sl.stock.set idx ⟨kind, min (it.count + amt) cap⟩, some kind⟩,
          min (it.count + amt) cap)
      else some (sl, min (it.count + amt) cap) := by
  unfold StorageSlot.increment_resource_count StorageSlot.resource_index_and_count
    StorageSlot.set_resource_count stockSet
  by_cases hch : min (it.count + amt) cap ≠ it.count
  · simp [hfind, halloc, hch]
  · simp [hfind, halloc, hch]

theorem increment_eq_of_free (sl : StorageSlot) (kind : ResourceKind) (amt cap idx : Nat)
    (it : StockItem) (hfind : stockFind sl.stock kind = some (idx, it))
    (halloc : sl.allocated_resource_kind = none) :
    sl.increment_resource_count kind amt cap =
      if min (it.count + amt) cap ≠ it.count then
        some (⟨sl.stock.set idx ⟨kind, min (it.count + amt) cap⟩, some kind⟩,
          min (it.count + amt) cap)
      else some (⟨sl.stock, some kind⟩, min (it.count + amt) cap) := by
  unfold StorageSlot.increment_resource_count StorageSlot.resource_index_and_count
    StorageSlot.set_resource_count stockSet
  by_cases hch : min (it.count + amt) cap ≠ it.count
  · simp [hfind, halloc, hch]
  · simp [hfind, halloc, hch]

theorem increment_eq_none_of_mismatch (sl : StorageSlot) (kind ak : ResourceKind)
    (amt cap : Nat) (halloc : sl.allocated_resource_kind = some ak) (hak : ak ≠ kind) :
    sl.increment_resource_count kind amt cap = none := by
  unfold StorageSlot.increment_resource_count StorageSlot.resource_index_and_count
  cases hfind : stockFind sl.stock kind with
  | none => simp [hfind]
  | some p => simp [hfind, halloc, hak]

theorem increment_eq_none_of_not_found (sl : StorageSlot) (kind : ResourceKind)
    (amt cap : Nat) (hfind : stockFind sl.stock kind = none) :
    sl.increment_resource_count kind amt cap = none := by
  unfold StorageSlot.increment_resource_count StorageSlot.resource_index_and_count
  simp [hfind]

theorem decrement_eq_of_zero (sl : StorageSlot) (kind : ResourceKind) (sub idx : Nat)
    (it : StockItem) (hfind : stockFind sl.stock kind = some (idx, it))
    (hz : it.count = 0) :
    sl.decrement_resource_count kind sub = some (sl, 0) := by
  unfold StorageSlot.decrement_resource_count StorageSlot.resource_index_and_count
  simp [hfind, hz]

theorem decrement_eq_of_nonzero (sl : StorageSlot) (kind : ResourceKind) (sub idx : Nat)
    (it : StockItem) (hfind : stockFind sl.stock kind = some (idx, it))
    (hnz : it.count ≠ 0) (halloc : sl.allocated_resource_kind = some kind) :
    sl.decrement_resource_count kind sub =
      some (if it.count - sub = 0 then
              (⟨sl.stock.set idx ⟨kind, it.count - sub⟩, none⟩, it.count - sub)
            else (⟨sl.stock.set idx ⟨kind, it.count - sub⟩, some kind⟩, it.count - sub)) := by
  unfold StorageSlot.decrement_resource_count StorageSlot.resource_index_and_count
    StorageSlot.set_resource_count stockSet
  by_cases hz : it.count - sub = 0
  · simp [hfind, halloc, hnz, hz]
  · simp [hfind, halloc, hnz, hz]

theorem decrement_eq_none_of_conflict (sl : StorageSlot) (kind : ResourceKind) (sub idx : Nat)
    (it : StockItem) (hfind : stockFind sl.stock kind = some (idx, it))
    (hnz : it.count ≠ 0) (halloc : ∀ ak, sl.allocated_resource_kind = some ak → ak ≠ kind) :
    sl.decrement_resource_count kind sub = none := by
  unfold StorageSlot.decrement_resource_count StorageSlot.resource_index_and_count
  cases hall : sl.allocated_resource_kind with
  | none => simp [hfind, hnz, hall]
  | some ak => simp [hfind, hnz, hall, halloc ak hall]

theorem decrement_eq_none_of_not_found (sl : StorageSlot) (kind : ResourceKind) (sub : Nat)
    (hfind : stockFind sl.stock kind = none) :
    sl.decrement_resource_count kind sub = none := by
  unfold StorageSlot.decrement_resource_count StorageSlot.resource_index_and_count
  simp [hfind]

theorem slotWF_increment (cap : Nat) (hcap : 1 ≤ cap) (sl : StorageSlot) (kind : ResourceKind)
    (amt : Nat) (hamt : 1 ≤ amt) (hWF : slotWF cap sl) (sl2 : StorageSlot) (ret : Nat)
    (h : sl.increment_resource_count kind amt cap = some (sl2, ret)) : slotWF cap sl2 := by
  cases hfind : stockFind sl.stock kind with
  | none => rw [increment_eq_none_of_not_found sl kind amt cap hfind] at h; cases h
  | some p =>
    obtain ⟨idx, it⟩ := p
    obtain ⟨hitk, hidxlt, hidxget⟩ := stockFind_some sl.stock kind idx it hfind
    cases halloc : sl.allocated_resource_kind with
    | some ak =>
      by_cases hak : ak = kind
      · subst hak
        have hWF' := hWF
        unfold slotWF at hWF'
        rw [halloc] at hWF'
        obtain ⟨i0, it0, hfind0, hne0, hle0, hz0⟩ := hWF'
        rw [hfind] at hfind0
        obtain ⟨h1, h2⟩ : idx = i0 ∧ it = it0 := by
          have := Option.some.inj hfind0
          exact ⟨congrArg Prod.fst this, congrArg Prod.snd this⟩
        subst h1
        subst h2
        rw [increment_eq_of_alloc sl ak amt cap idx it hfind halloc] at h
        by_cases hch : min (it.count + amt) cap ≠ it.count
        · rw [if_pos hch] at h
          injection h with h'
          injection h' with hsl hret
          subst hsl
          unfold slotWF
          refine ⟨idx, ⟨ak, min (it.count + amt) cap⟩,
            stockFind_set sl.stock ak idx it _ hfind, ?_, min_le_right _ _, ?_⟩
          · show min (it.count + amt) cap ≠ 0
            exact Nat.one_le_iff_ne_zero.mp (le_min (by omega) hcap)
          · intro j hj hji
            have hj' : j < sl.stock.length := by simpa using hj
            have hz := hz0 j hj' hji
            have hne : idx ≠ j := fun hc => hji hc.symm
            simpa [List.get_eq_getElem, List.getElem_set_ne hne] using hz
        · rw [if_neg hch] at h
          injection h with h'
          injection h' with hsl hret
          subst hsl
          exact hWF
      · rw [increment_eq_none_of_mismatch sl kind ak amt cap halloc hak] at h
        cases h
    | none =>
      have hWF' := hWF
      unfold slotWF at hWF'
      rw [halloc] at hWF'
      have hit0 : it.count = 0 := by
        have := hWF' idx hidxlt
        rw [hidxget] at this
        exact this
      have hch : min (it.count + amt) cap ≠ it.count := by
        have : 1 ≤ min (it.count + amt) cap := le_min (by omega) hcap
        omega
      rw [increment_eq_of_free sl kind amt cap idx it hfind halloc, if_pos hch] at h
      injection h with h'
      injection h' with hsl hret
      subst hsl
      unfold slotWF
      refine ⟨idx, ⟨kind, min (it.count + amt) cap⟩,
        stockFind_set sl.stock kind idx it _ hfind, ?_, min_le_right _ _, ?_⟩
      · show min (it.count + amt) cap ≠ 0
        exact Nat.one_le_iff_ne_zero.mp (le_min (by omega) hcap)
      · intro j hj hji
        have hj' : j < sl.stock.length := by simpa using hj
        have hz := hWF' j hj'
        have hne : idx ≠ j := fun hc => hji hc.symm
        simpa [List.get_eq_getElem, List.getElem_set_ne hne] using hz

theorem slotWF_decrement (cap : Nat) (sl : StorageSlot) (kind : ResourceKind) (sub : Nat)
    (hWF : slotWF cap sl) (sl2 : StorageSlot) (ret : Nat)
    (h : sl.decrement_resource_count kind sub = some (sl2, ret)) : slotWF cap sl2 := by
  cases hfind : stockFind sl.stock kind with
  | none => rw [decrement_eq_none_of_not_found sl kind sub hfind] at h; cases h
  | some p =>
    obtain ⟨idx, it⟩ := p
    by_cases hz : it.count = 0
    · rw [decrement_eq_of_zero sl kind sub idx it hfind hz] at h
      injection h with h'
      injection h' with hsl hret
      subst hsl
      exact hWF
    · cases halloc : sl.allocated_resource_kind with
      | none =>
        rw [decrement_eq_none_of_conflict sl kind sub idx it hfind hz
          (fun ak hak => by rw [halloc] at hak; cases hak)] at h
        cases h
      | some ak =>
        by_cases hak : ak = kind
        · subst hak
          have hWF' := hWF
          unfold slotWF at hWF'
          rw [halloc] at hWF'
          obtain ⟨i0, it0, hfind0, hne0, hle0, hz0⟩ := hWF'
          rw [hfind] at hfind0
          obtain ⟨h1, h2⟩ : idx = i0 ∧ it = it0 := by
            have := Option.some.inj hfind0
            exact ⟨congrArg Prod.fst this, congrArg Prod.snd this⟩
          subst h1
          subst h2
          rw [decrement_eq_of_nonzero sl ak sub idx it hfind hz halloc] at h
          by_cases hc0 : it.count - sub = 0
          · rw [if_pos hc0] at h
            injection h with h'
            injection h' with hsl hret
            subst hsl
            unfold slotWF
            intro j hj
            have hj' : j < sl.stock.length := by simpa using hj
            by_cases hji : j = idx
            · subst hji
              simp [List.get_eq_getElem, List.getElem_set_self, hc0]
            · have hz' := hz0 j hj' hji
              have hne : idx ≠ j := fun hc => hji hc.symm
              simpa [List.get_eq_getElem, List.getElem_set_ne hne] using hz'
          · rw [if_neg hc0] at h
            injection h with h'
            injection h' with hsl hret
            subst hsl
            unfold slotWF
            refine ⟨idx, ⟨ak, it.count - sub⟩,
              stockFind_set sl.stock ak idx it _ hfind, hc0, ?_, ?_⟩
            · show it.count - sub ≤ cap
              omega
            intro j hj hji
            have hj' : j < sl.stock.length := by simpa using hj
            have hz' := hz0 j hj' hji
            have hne : idx ≠ j := fun hc => hji hc.symm
            simpa [List.get_eq_getElem, List.getElem_set_ne hne] using hz'
        · rw [decrement_eq_none_of_conflict sl kind sub idx it hfind hz
            (fun ak' hak' => by
              rw [halloc] at hak'
              rw [← Option.some.inj hak']
              exact hak)] at h
          cases h

theorem mem_of_getElemQ {α : Type} (l : List α) (i : Nat) (a : α) (h : l[i]? = some a) : a ∈ l := by
  have hi : i < l.length := by
    by_contra hc
    rw [List.getElem?_eq_none (by omega)] at h
    cases h
  rw [List.getElem?_eq_getElem hi] at h
  rw [← Option.some.inj h]
  exact List.getElem_mem hi

theorem slotsWF_set (s : StorageSlots) (i : Nat) (sl2 : StorageSlot)
    (hWF : slotsWF s) (hsl2 : slotWF s.slot_capacity sl2) :
    slotsWF { s with slots := s.slots.set i sl2 } := by
  refine ⟨hWF.1, ?_⟩
  intro sl hsl
  rcases List.mem_or_eq_of_mem_set hsl with h | rfl
  · exact hWF.2 sl h
  · exact hsl2

theorem slotsWF_increment_slot (s : StorageSlots) (i : Nat) (kind : ResourceKind) (amt : Nat)
    (hamt : 1 ≤ amt) (hWF : slotsWF s) (s2 : StorageSlots) (ret : Nat)
    (h : s.increment_slot_resource_count i kind amt = some (s2, ret)) : slotsWF s2 := by
  unfold StorageSlots.increment_slot_resource_count at h
  cases hi : s.slots[i]? with
  | none => simp [hi] at h
  | some sl =>
    simp only [hi] at h
    cases hinc : sl.increment_resource_count kind amt s.slot_capacity with
    | none => simp [hi, hinc] at h
    | some p =>
      obtain ⟨sl2, r⟩ := p
      simp only [hinc, Option.map_some', Option.some.injEq, Prod.mk.injEq] at h
      obtain ⟨h1, h2⟩ := h
      rw [← h1]
      exact slotsWF_set s i sl2 hWF
        (slotWF_increment s.slot_capacity hWF.1 sl kind amt hamt
          (hWF.2 sl (mem_of_getElemQ s.slots i sl hi)) sl2 r hinc)

theorem slotsWF_decrement_slot (s : StorageSlots) (i : Nat) (kind : ResourceKind) (amt : Nat)
    (hWF : slotsWF s) (s2 : StorageSlots) (ret : Nat)
    (h : s.decrement_slot_resource_count i kind amt = some (s2, ret)) : slotsWF s2 := by
  unfold StorageSlots.decrement_slot_resource_count at h
  cases hi : s.slots[i]? with
  | none => simp [hi] at h
  | some sl =>
    simp only [hi] at h
    cases hdec : sl.decrement_resource_count kind amt with
    | none => simp [hi, hdec] at h
    | some p =>
      obtain ⟨sl2, r⟩ := p
      simp only [hdec, Option.map_some', Option.some.injEq, Prod.mk.injEq] at h
      obtain ⟨h1, h2⟩ := h
      rw [← h1]
      exact slotsWF_set s i sl2 hWF
        (slotWF_decrement s.slot_capacity sl kind amt
          (hWF.2 sl (mem_of_getElemQ s.slots i sl hi)) sl2 r hdec)

theorem slotsWF_receive (s : StorageSlots) (kind : ResourceKind) (cnt : Nat) (hcnt : 1 ≤ cnt)
    (hWF : slotsWF s) (s2 : StorageSlots) (ret : Nat)
    (h : s.receive_resources kind cnt = some (s2, ret)) : slotsWF s2 := by
  unfold StorageSlots.receive_resources at h
  cases halloc : s.alloc_resource_slot kind with
  | none =>
    simp only [halloc, Option.some.injEq, Prod.mk.injEq] at h
    rw [← h.1]
    exact hWF
  | some i =>
    simp only [halloc] at h
    cases hprev : s.slot_resource_count i kind with
    | none => simp [hprev] at h
    | some prev =>
      simp only [hprev] at h
      cases hinc : s.increment_slot_resource_count i kind cnt with
      | none => simp [hinc] at h
      | some p =>
        obtain ⟨s3, nc⟩ := p
        simp only [hinc, Option.some.injEq, Prod.mk.injEq] at h
        rw [← h.1]
        exact slotsWF_increment_slot s i kind cnt hcnt hWF s3 nc hinc

/-- A receive call with a nonzero amount (the restriction the zero-amount
counterexample forces on the claimed invariant). -/
def goodStorageOp : StorageOp → Prop
  | .receive _ count => 1 ≤ count
  | .decrement _ _ _ => True

theorem slotsWF_apply (s : StorageSlots) (op : StorageOp) (s2 : StorageSlots)
    (hWF : slotsWF s) (hop : goodStorageOp op) (h : applyStorageOp s op = some s2) : slotsWF s2 := by
  cases op with
  | receive kind count =>
    unfold applyStorageOp at h
    cases hr : s.receive_resources kind count with
    | none => simp [hr] at h
    | some p =>
      obtain ⟨s3, r⟩ := p
      simp only [hr, Option.map_some', Option.some.injEq] at h
      rw [← h]
      exact slotsWF_receive s kind count hop hWF s3 r hr
  | decrement i kind amt =>
    unfold applyStorageOp at h
    cases hr : s.decrement_slot_resource_count i kind amt with
    | none => simp [hr] at h
    | some p =>
      obtain ⟨s3, r⟩ := p
      simp only [hr, Option.map_some', Option.some.injEq] at h
      rw [← h]
      exact slotsWF_decrement_slot s i kind amt hWF s3 r hr

theorem slotsWF_run : ∀ (ops : List StorageOp) (s s2 : StorageSlots),
    slotsWF s → (∀ op ∈ ops, goodStorageOp op) → runStorageOps s ops = some s2 → slotsWF s2 := by
  intro ops
  induction ops with
  | nil =>
    intro s s2 hWF _ h
    unfold runStorageOps at h
    injection h with h1
    rw [← h1]
    exact hWF
  | cons op rest ih =>
    intro s s2 hWF hops h
    unfold runStorageOps at h
    cases ha : applyStorageOp s op with
    | none => simp [ha] at h
    | some s3 =>
      simp only [ha] at h
      exact ih s3 s2 (slotsWF_apply s op s3 hWF (hops op (by simp)) ha)
        (fun o ho => hops o (by simp [ho])) h

theorem slotsWF_new (accepted : List ResourceKind) (n cap : Nat) (s : StorageSlots)
    (h : StorageSlots.new accepted n cap = some s) : slotsWF s := by
  unfold StorageSlots.new at h
  split_ifs at h with h1 h2
  injection h with h'
  rw [← h']
  constructor
  · show 1 ≤ cap
    have hcap : cap ≠ 0 := fun hc => h1 (by simp [hc])
    omega
  · intro sl hsl
    rw [List.eq_of_mem_replicate hsl]
    unfold slotWF
    intro j hj
    simp [withAcceptedList]

theorem storageClaimInv_of_slotsWF (s : StorageSlots) (h : slotsWF s) : storageClaimInv s := by
  intro sl hsl
  have hWF := h.2 sl hsl
  unfold slotWF at hWF
  cases halloc : sl.allocated_resource_kind with
  | none =>
    rw [halloc] at hWF
    have htot := stockTotal_eq_zero_of_allZero sl.stock hWF
    exact ⟨by omega, by simp [htot, halloc]⟩
  | some k =>
    rw [halloc] at hWF
    obtain ⟨i, it, hfind, hne, hle, hz⟩ := hWF
    obtain ⟨hk, hlt, hget⟩ := stockFind_some _ _ _ _ hfind
    have htot : stockTotal sl.stock = it.count := by
      rw [stockTotal_eq_of_zeroExcept sl.stock i hlt hz, hget]
    exact ⟨by omega, by simp [htot, halloc, hne]⟩

instance : DecidablePred goodStorageOp := fun op =>
  match op with
  | .receive _ c => inferInstanceAs (Decidable (1 ≤ c))
  | .decrement _ _ _ => inferInstanceAs (Decidable True)

/-- C1 (amended): for every sequence of `receive_resources` calls with
nonzero counts and arbitrary `decrement_slot_resource_count` calls on a
`StorageSlots` value constructed with a nonzero number of slots, nonzero
`slot_capacity` and a non-empty accepted-kind list, after every
non-panicking call each slot holds at most `slot_capacity` units and its
`allocated_resource_kind` is `None` iff the slot holds 0 units. -/
theorem C1_storage_slot_invariant (accepted : List ResourceKind) (num_slots cap : Nat)
    (s0 : StorageSlots) (hnew : StorageSlots.new accepted num_slots cap = some s0)
    (ops : List StorageOp) (hops : ∀ op ∈ ops, goodStorageOp op)
    (s2 : StorageSlots) (hrun : runStorageOps s0 ops = some s2) :
    storageClaimInv s2 :=
  storageClaimInv_of_slotsWF s2
    (slotsWF_run ops s0 s2 (slotsWF_new accepted num_slots cap s0 hnew) hops hrun)

def c1start : StorageSlots :=
  ⟨List.replicate 8 ⟨[⟨ResourceKind.Rice, 0⟩, ⟨ResourceKind.Meat, 0⟩], none⟩, 4⟩

def c1final : StorageSlots :=
  ⟨⟨[⟨ResourceKind.Rice, 2⟩, ⟨ResourceKind.Meat, 0⟩], some ResourceKind.Rice⟩ ::
    List.replicate 7 ⟨[⟨ResourceKind.Rice, 0⟩, ⟨ResourceKind.Meat, 0⟩], none⟩, 4⟩

/-- Witness for C1: a concrete run (receive 3 Rice, then shed 1) whose final
state satisfies the invariant. -/
theorem C1_storage_slot_invariant_witness : storageClaimInv c1final :=
  C1_storage_slot_invariant [ResourceKind.Rice, ResourceKind.Meat] 8 4 c1start (by decide)
    [StorageOp.receive ResourceKind.Rice 3, StorageOp.decrement 0 ResourceKind.Rice 1]
    (by decide) c1final (by decide)

def c1zeroStart : StorageSlots := ⟨List.replicate 2 ⟨[⟨ResourceKind.Rice, 0⟩], none⟩, 4⟩

def c1zeroFinal : StorageSlots :=
  ⟨[⟨[⟨ResourceKind.Rice, 0⟩], some ResourceKind.Rice⟩, ⟨[⟨ResourceKind.Rice, 0⟩], none⟩], 4⟩

/-- Counterexample to C1 as stated: a single `receive_resources(Rice, 0)`
call on a freshly constructed storage allocates a slot to Rice while
leaving its count 0, so `allocated_resource_kind` is not `None` on a slot
with count 0. -/
theorem C1_counterexample :
    StorageSlots.new [ResourceKind.Rice] 2 4 = some c1zeroStart ∧
    runStorageOps c1zeroStart [StorageOp.receive ResourceKind.Rice 0] = some c1zeroFinal ∧
    ¬ storageClaimInv c1zeroFinal := by
  refine ⟨by decide, by decide, by decide⟩

-- ----------------------------------------------
-- UpdateTimer / Simulation (src/src/game/sim/mod.rs)
-- ----------------------------------------------

/-- `f32` seconds are embedded as rationals; every comparison appearing in
the claims is far from any `f32` rounding boundary. -/
abbrev Seconds := ℚ

structure UpdateTimer where
  update_frequency_secs : Seconds
  time_since_last_update_secs : Seconds
deriving DecidableEq

inductive UpdateTimerResult where
  | DoNotUpdate
  | ShouldUpdate
deriving DecidableEq

def UpdateTimerResult.should_update : UpdateTimerResult → Bool
  | .ShouldUpdate => true
  | .DoNotUpdate => false

def UpdateTimer.new (update_frequency_secs : Seconds) : UpdateTimer :=
  ⟨update_frequency_secs, 0⟩

/-- `UpdateTimer::tick`: the threshold test reads the accumulator before the
current frame delta is added; on the triggering call the accumulator is
reset to 0 and that frame delta is dropped. -/
def UpdateTimer.tick (t : UpdateTimer) (delta_time_secs : Seconds) :
    UpdateTimer × UpdateTimerResult :=
  if t.time_since_last_update_secs ≥ t.update_frequency_secs then
    ({ t with time_since_last_update_secs := 0 }, .ShouldUpdate)
  else
    ({ t with time_since_last_update_secs := t.time_since_last_update_secs + delta_time_secs },
      .DoNotUpdate)

def UpdateTimer.time_since_last_secs (t : UpdateTimer) : Seconds :=
  t.time_since_last_update_secs

def DEFAULT_SIM_UPDATE_FREQUENCY_SECS : Seconds := 1 / 2

/-- `Simulation::update`: reads the accumulated time, ticks the timer, and
performs one world update when told to; the second component records the
delta passed to `World::update` (`none` when the frame skipped). -/
def simulationUpdate (t : UpdateTimer) (delta_time : Seconds) :
    UpdateTimer × Option Seconds :=
  let world_update_delta_time_secs := t.time_since_last_secs
  let p := t.tick delta_time
  (p.1, if p.2.should_update then some world_update_delta_time_secs else none)

/-- Frame loop feeding a list of per-frame deltas; returns the final timer
state and the deltas of the world updates actually performed. -/
def runSimulation : UpdateTimer → List Seconds → UpdateTimer × List Seconds
  | t, [] => (t, [])
  | t, d :: rest =>
    let p := simulationUpdate t d
    let q := runSimulation p.1 rest
    (q.1, match p.2 with | some dt => dt :: q.2 | none => q.2)

/-- Counterexample to C2 as stated: with update frequency 0.5s, the three
frame deltas 0.2s, 0.2s, 0.2s trigger no world update at all (the threshold
test runs before the frame delta is added), and the accumulator afterwards
holds 0.6s, not 0. -/
theorem C2_counterexample :
    runSimulation (UpdateTimer.new DEFAULT_SIM_UPDATE_FREQUENCY_SECS) [1/5, 1/5, 1/5] =
      (⟨1/2, 3/5⟩, []) := by
  norm_num [runSimulation, simulationUpdate, UpdateTimer.tick, UpdateTimer.new,
    UpdateTimer.time_since_last_secs, UpdateTimerResult.should_update,
    DEFAULT_SIM_UPDATE_FREQUENCY_SECS]

/-- C2 (amended): the scheduler performs a world update exactly when the
accumulated time excluding the current frame delta has already reached the
update frequency; the triggering call uses the accumulated time as the
tick delta, resets the accumulator to 0 and discards that frame delta;
otherwise it adds the frame delta to the accumulator and skips the update.
With frequency 0.5s, deltas 0.2s, 0.2s, 0.2s trigger no update; a fourth
call triggers exactly one, with delta 0.6s, leaving the accumulator 0. -/
theorem C2_fixed_step_scheduler :
    (∀ (t : UpdateTimer) (delta : Seconds),
      (t.time_since_last_update_secs ≥ t.update_frequency_secs →
        simulationUpdate t delta =
          (⟨t.update_frequency_secs, 0⟩, some t.time_since_last_update_secs)) ∧
      (t.time_since_last_update_secs < t.update_frequency_secs →
        simulationUpdate t delta =
          (⟨t.update_frequency_secs, t.time_since_last_update_secs + delta⟩, none))) ∧
    runSimulation (UpdateTimer.new DEFAULT_SIM_UPDATE_FREQUENCY_SECS) [1/5, 1/5, 1/5, 1/5] =
      (⟨1/2, 0⟩, [3/5]) := by
  constructor
  · intro t delta
    constructor
    · intro hge
      simp [simulationUpdate, UpdateTimer.tick, UpdateTimer.time_since_last_secs, hge,
        UpdateTimerResult.should_update]
    · intro hlt
      simp [simulationUpdate, UpdateTimer.tick, UpdateTimer.time_since_last_secs,
        not_le.mpr hlt, UpdateTimerResult.should_update]
  · norm_num [runSimulation, simulationUpdate, UpdateTimer.tick, UpdateTimer.new,
      UpdateTimer.time_since_last_secs, UpdateTimerResult.should_update,
      DEFAULT_SIM_UPDATE_FREQUENCY_SECS]

/-- Witness for C2: the amended theorem applied to the accumulator state
0.6s (triggering, tick delta 0.6s) and to 0.2s (skipping). -/
theorem C2_fixed_step_scheduler_witness :
    simulationUpdate ⟨1/2, 3/5⟩ (1/5) = (⟨1/2, 0⟩, some (3/5)) ∧
    simulationUpdate ⟨1/2, 1/5⟩ (1/5) = (⟨1/2, 1/5 + 1/5⟩, none) :=
  ⟨(C2_fixed_step_scheduler.1 ⟨1/2, 3/5⟩ (1/5)).1 (by norm_num),
   (C2_fixed_step_scheduler.1 ⟨1/2, 1/5⟩ (1/5)).2 (by norm_num)⟩

-- ----------------------------------------------
-- C5: how_many_can_fit
-- ----------------------------------------------

theorem foldl_add_of_pointwise {α : Type} (f : Nat → α → Nat) (g : α → Nat)
    (hfg : ∀ a x, f a x = a + g x) :
    ∀ (l : List α) (a : Nat), l.foldl f a = a + (l.map g).sum := by
  intro l
  induction l with
  | nil => intro a; simp
  | cons x rest ih =>
    intro a
    rw [List.foldl_cons, ih, hfg, List.map_cons, List.sum_cons]
    omega

def c5twoRice : StorageSlots :=
  ⟨⟨[⟨ResourceKind.Rice, 4⟩, ⟨ResourceKind.Meat, 0⟩], some ResourceKind.Rice⟩ ::
    ⟨[⟨ResourceKind.Rice, 4⟩, ⟨ResourceKind.Meat, 0⟩], some ResourceKind.Rice⟩ ::
    List.replicate 6 ⟨[⟨ResourceKind.Rice, 0⟩, ⟨ResourceKind.Meat, 0⟩], none⟩, 4⟩

/-- C5: `how_many_can_fit(kind)` equals the sum over all slots of the slot
capacity for a free slot, the remaining capacity for a slot allocated to
the kind, and 0 otherwise (it is a pure function of the state and mutates
nothing); in the spec scenario (8 slots of capacity 4 accepting Rice and
Meat), the empty storage fits 32 Rice, and after receiving 4 Rice twice
(filling two slots) it fits 24 Rice and 24 Meat. -/
theorem C5_how_many_can_fit :
    (∀ (s : StorageSlots) (kind : ResourceKind), singleBitKind kind = true →
      s.how_many_can_fit kind =
        (s.slots.map (fun sl =>
          if sl.allocated_resource_kind = none then s.slot_capacity
          else if sl.allocated_resource_kind = some kind then
            s.slot_capacity - stockCount sl.stock kind
          else 0)).sum) ∧
    c1start.how_many_can_fit ResourceKind.Rice = 32 ∧
    runStorageOps c1start
      [StorageOp.receive ResourceKind.Rice 4, StorageOp.receive ResourceKind.Rice 4] =
      some c5twoRice ∧
    c5twoRice.how_many_can_fit ResourceKind.Rice = 24 ∧
    c5twoRice.how_many_can_fit ResourceKind.Meat = 24 := by
  refine ⟨?_, by decide, by decide, by decide, by decide⟩
  intro s kind _
  refine (foldl_add_of_pointwise _
    (fun sl => if sl.allocated_resource_kind = none then s.slot_capacity
      else if sl.allocated_resource_kind = some kind then
        s.slot_capacity - stockCount sl.stock kind
      else 0) ?_ s.slots 0).trans (Nat.zero_add _)
  intro a sl
  cases halloc : sl.allocated_resource_kind with
  | none => simp [StorageSlot.is_free, halloc]
  | some ak =>
    by_cases hak : ak = kind
    · subst hak
      simp [StorageSlot.is_free, halloc, StorageSlot.remaining_capacity]
    · simp [StorageSlot.is_free, halloc, hak]

/-- Witness for C5: the sum formula evaluated on the two-Rice-slots state. -/
theorem C5_how_many_can_fit_witness :
    c5twoRice.how_many_can_fit ResourceKind.Rice =
      (c5twoRice.slots.map (fun sl =>
        if sl.allocated_resource_kind = none then c5twoRice.slot_capacity
        else if sl.allocated_resource_kind = some ResourceKind.Rice then
          c5twoRice.slot_capacity - stockCount sl.stock ResourceKind.Rice
        else 0)).sum :=
  C5_how_many_can_fit.1 c5twoRice ResourceKind.Rice (by decide)

/-- The spec-scenario storage holding a single unit of Rice. -/
def c1riceOne : StorageSlots :=
  ⟨⟨[⟨ResourceKind.Rice, 1⟩, ⟨ResourceKind.Meat, 0⟩], some ResourceKind.Rice⟩ ::
    List.replicate 7 ⟨[⟨ResourceKind.Rice, 0⟩, ⟨ResourceKind.Meat, 0⟩], none⟩, 4⟩

-- ----------------------------------------------
-- C4: receive_resources / alloc_resource_slot
-- ----------------------------------------------

theorem stockCount_eq_of_find (st : ResourceStock) (k : ResourceKind) (i : Nat)
    (it : StockItem) (h : stockFind st k = some (i, it)) : stockCount st k = it.count := by
  unfold stockCount
  rw [h]

/-- C4: `receive_resources(kind, count)` selects the first slot already
allocated to the kind that is not full; failing that, the first free slot;
failing that it accepts nothing and leaves the state unchanged. On success
it clamps the selected slot's count to `slot_capacity` and returns the
delta actually absorbed, leaving every other slot unchanged. -/
theorem C4_receive_resources (s : StorageSlots) (kind : ResourceKind)
    (hk : singleBitKind kind = true) (count : Nat) :
    (∀ i, s.alloc_resource_slot kind = some i →
      ∃ h : i < s.slots.length,
        (((s.slots.get ⟨i, h⟩).allocated_resource_kind = some kind ∧
            (s.slots.get ⟨i, h⟩).is_full s.slot_capacity = false) ∧
          ∀ j (hj : j < s.slots.length), j < i →
            ¬ ((s.slots.get ⟨j, hj⟩).allocated_resource_kind = some kind ∧
               (s.slots.get ⟨j, hj⟩).is_full s.slot_capacity = false)) ∨
        ((∀ sl ∈ s.slots, ¬ (sl.allocated_resource_kind = some kind ∧
             sl.is_full s.slot_capacity = false)) ∧
          (s.slots.get ⟨i, h⟩).is_free = true ∧
          ∀ j (hj : j < s.slots.length), j < i → (s.slots.get ⟨j, hj⟩).is_free = false)) ∧
    (s.alloc_resource_slot kind = none → s.receive_resources kind count = some (s, 0)) ∧
    (∀ i sl idx it, s.alloc_resource_slot kind = some i → s.slots[i]? = some sl →
      stockFind sl.stock kind = some (idx, it) → it.count ≤ s.slot_capacity →
      ∃ sl2, s.receive_resources kind count =
          some ({ s with slots := s.slots.set i sl2 },
            min (it.count + count) s.slot_capacity - it.count) ∧
        sl2.allocated_resource_kind = some kind ∧
        stockCount sl2.stock kind = min (it.count + count) s.slot_capacity) := by
  refine ⟨?_, ?_, ?_⟩
  · -- selection policy
    intro i halloc
    unfold StorageSlots.alloc_resource_slot at halloc
    cases hfi : firstIdx (fun sl => sl.allocated_resource_kind == some kind
        && !(sl.is_full s.slot_capacity)) s.slots with
    | some i' =>
      rw [hfi] at halloc
      injection halloc with h'
      subst h'
      obtain ⟨hlt, hp, hmin⟩ := firstIdx_eq_some _ s.slots i' hfi
      refine ⟨hlt, Or.inl ⟨?_, ?_⟩⟩
      · simpa [Bool.and_eq_true, Bool.not_eq_true'] using hp
      · intro j hj hji
        have hmj := hmin j hj hji
        simpa [Bool.and_eq_true, Bool.not_eq_true'] using hmj
    | none =>
      rw [hfi] at halloc
      unfold StorageSlots.find_free_slot at halloc
      obtain ⟨hlt, hp, hmin⟩ := firstIdx_eq_some _ s.slots i halloc
      have hnone := (firstIdx_eq_none _ s.slots).mp hfi
      refine ⟨hlt, Or.inr ⟨?_, hp, ?_⟩⟩
      · intro sl hsl
        have hns := hnone sl hsl
        simpa [Bool.and_eq_true, Bool.not_eq_true'] using hns
      · intro j hj hji
        have hmj := hmin j hj hji
        cases hb : (s.slots.get ⟨j, hj⟩).is_free with
        | false => rfl
        | true => exact absurd hb hmj
  · -- no slot: nothing accepted
    intro halloc
    unfold StorageSlots.receive_resources
    rw [halloc]
  · -- success: clamped increment and delta
    intro i sl idx it halloc hget hfind hle
    have hprev : s.slot_resource_count i kind = some it.count := by
      unfold StorageSlots.slot_resource_count
      simp only [hget]
      unfold StorageSlot.resource_index_and_count
      rw [hfind]
      rfl
    have hcases : sl.allocated_resource_kind = some kind ∨
        sl.allocated_resource_kind = none := by
      unfold StorageSlots.alloc_resource_slot at halloc
      cases hfi : firstIdx (fun sl => sl.allocated_resource_kind == some kind
          && !(sl.is_full s.slot_capacity)) s.slots with
      | some i' =>
        rw [hfi] at halloc
        injection halloc with h'
        subst h'
        obtain ⟨hlt, hp, _⟩ := firstIdx_eq_some _ s.slots i' hfi
        have hp' : (s.slots.get ⟨i', hlt⟩).allocated_resource_kind = some kind ∧
            (s.slots.get ⟨i', hlt⟩).is_full s.slot_capacity = false := by
          simpa [Bool.and_eq_true, Bool.not_eq_true'] using hp
        left
        rw [List.getElem?_eq_getElem hlt] at hget
        injection hget with hget'
        rw [← hget']
        exact hp'.1
      | none =>
        rw [hfi] at halloc
        unfold StorageSlots.find_free_slot at halloc
        obtain ⟨hlt, hp, _⟩ := firstIdx_eq_some _ s.slots i halloc
        right
        rw [List.getElem?_eq_getElem hlt] at hget
        injection hget with hget'
        rw [← hget']
        simpa [StorageSlot.is_free, Option.isNone_iff_eq_none] using hp
    have hmain : ∀ sl2 r, sl.increment_resource_count kind count s.slot_capacity =
        some (sl2, r) →
        s.receive_resources kind count =
          some ({ s with slots := s.slots.set i sl2 }, r - it.count) := by
      intro sl2 r hinc
      unfold StorageSlots.receive_resources
      simp only [halloc, hprev]
      unfold StorageSlots.increment_slot_resource_count
      simp only [hget, hinc, Option.map_some']
    rcases hcases with hcs | hcs
    · have hinceq := increment_eq_of_alloc sl kind count s.slot_capacity idx it hfind hcs
      by_cases hch : min (it.count + count) s.slot_capacity ≠ it.count
      · rw [if_pos hch] at hinceq
        exact ⟨⟨sl.stock.set idx ⟨kind, min (it.count + count) s.slot_capacity⟩, some kind⟩,
          hmain _ _ hinceq, rfl,
          stockCount_eq_of_find _ _ idx _ (stockFind_set sl.stock kind idx it _ hfind)⟩
      · rw [if_neg hch] at hinceq
        have hceq : min (it.count + count) s.slot_capacity = it.count := not_not.mp hch
        refine ⟨sl, hmain _ _ hinceq, hcs, ?_⟩
        rw [stockCount_eq_of_find sl.stock kind idx it hfind, hceq]
    · have hinceq := increment_eq_of_free sl kind count s.slot_capacity idx it hfind hcs
      by_cases hch : min (it.count + count) s.slot_capacity ≠ it.count
      · rw [if_pos hch] at hinceq
        exact ⟨⟨sl.stock.set idx ⟨kind, min (it.count + count) s.slot_capacity⟩, some kind⟩,
          hmain _ _ hinceq, rfl,
          stockCount_eq_of_find _ _ idx _ (stockFind_set sl.stock kind idx it _ hfind)⟩
      · rw [if_neg hch] at hinceq
        have hceq : min (it.count + count) s.slot_capacity = it.count := not_not.mp hch
        refine ⟨⟨sl.stock, some kind⟩, hmain _ _ hinceq, rfl, ?_⟩
        show stockCount sl.stock kind = _
        rw [stockCount_eq_of_find sl.stock kind idx it hfind, hceq]

/-- Witness for C4: the single-Rice-unit storage accepts 4 more Rice into
its already-allocated slot 0, clamped to capacity 4 (delta 3). -/
theorem C4_receive_resources_witness :
    ∃ sl2, c1riceOne.receive_resources ResourceKind.Rice 4 =
        some ({ c1riceOne with slots := c1riceOne.slots.set 0 sl2 }, min (1 + 4) 4 - 1) ∧
      sl2.allocated_resource_kind = some ResourceKind.Rice ∧
      stockCount sl2.stock ResourceKind.Rice = min (1 + 4) 4 :=
  (C4_receive_resources c1riceOne ResourceKind.Rice (by decide) 4).2.2 0
    ⟨[⟨ResourceKind.Rice, 1⟩, ⟨ResourceKind.Meat, 0⟩], some ResourceKind.Rice⟩ 0
    ⟨ResourceKind.Rice, 1⟩ (by decide) (by decide) (by decide) (by decide)

-- ----------------------------------------------
-- C3: StorageBuilding::shop
-- ----------------------------------------------

/-- Total units of one kind across all slots. -/
def kindTotal (s : StorageSlots) (k : ResourceKind) : Nat :=
  (s.slots.map (fun sl => stockCount sl.stock k)).sum

theorem sum_map_set {α : Type} (f : α → Nat) : ∀ (l : List α) (i : Nat) (a : α)
    (h : i < l.length),
    ((l.set i a).map f).sum + f (l.get ⟨i, h⟩) = (l.map f).sum + f a := by
  intro l
  induction l with
  | nil => intro i a h; simp at h
  | cons x rest ih =>
    intro i a h
    match i with
    | 0 =>
      simp [List.set]
      omega
    | i' + 1 =>
      have hih := ih i' a (by simpa using Nat.lt_of_succ_lt_succ h)
      simp [List.set] at hih ⊢
      omega

theorem stockFind_set_other : ∀ (st : ResourceStock) (i : Nat) (x : StockItem)
    (k' : ResourceKind), (∀ h : i < st.length, (st.get ⟨i, h⟩).kind ≠ k') → x.kind ≠ k' →
    stockFind (st.set i x) k' = stockFind st k' := by
  intro st
  induction st with
  | nil => intro i x k' _ _; simp
  | cons a rest ih =>
    intro i x k' hold hnew
    match i with
    | 0 =>
      have ha : a.kind ≠ k' := hold (by simp)
      simp [List.set, stockFind, ha, hnew]
    | i' + 1 =>
      have hr := ih i' x k' (fun h => by simpa using hold (by simpa using Nat.succ_lt_succ h)) hnew
      simp [List.set, stockFind, hr]

theorem find_resource_slot_some (s : StorageSlots) (k : ResourceKind) (i : Nat)
    (h : s.find_resource_slot k = some i) :
    ∃ hlt : i < s.slots.length, (s.slots.get ⟨i, hlt⟩).allocated_resource_kind = some k := by
  obtain ⟨hlt, hp, _⟩ := firstIdx_eq_some _ _ _ h
  exact ⟨hlt, by simpa using hp⟩

theorem find_resource_slot_set_preserved (s : StorageSlots) (i : Nat) (sl2 : StorageSlot)
    (hlt : i < s.slots.length) (k' : ResourceKind)
    (hold : (s.slots.get ⟨i, hlt⟩).allocated_resource_kind ≠ some k')
    (hnew : sl2.allocated_resource_kind ≠ some k') :
    StorageSlots.find_resource_slot { s with slots := s.slots.set i sl2 } k' =
      s.find_resource_slot k' := by
  unfold StorageSlots.find_resource_slot
  refine firstIdx_congr _ _ _ _ (by simp) ?_
  intro j hj hj'
  by_cases hji : j = i
  · have h1 : (s.slots.set i sl2).get ⟨j, hj⟩ = sl2 := by
      subst hji
      simp [List.get_eq_getElem, List.getElem_set_self]
    have h2 : s.slots.get ⟨j, hj'⟩ = s.slots.get ⟨i, hlt⟩ := by
      subst hji
      rfl
    rw [h1, h2]
    simp only [List.get_eq_getElem] at hold
    simp [hnew, hold]
  · have h1 : (s.slots.set i sl2).get ⟨j, hj⟩ = s.slots.get ⟨j, hj'⟩ := by
      have hne : i ≠ j := fun hc => hji hc.symm
      simp [List.get_eq_getElem, List.getElem_set_ne hne]
    rw [h1]

theorem shopTake_all_available : ∀ (wanted : List ResourceKind) (s : StorageSlots)
    (basket : ResourceStock) (ks : Nat), slotsWF s → wanted.Nodup →
    (∀ k ∈ wanted, (s.find_resource_slot k).isSome = true) →
    ∃ s2, shopTake s basket wanted ks =
        some (s2, wanted.foldl stockAdd basket, wanted.foldl (fun a k => a ||| k) ks) ∧
      slotsWF s2 ∧ s2.slot_capacity = s.slot_capacity ∧
      (∀ k ∈ wanted, kindTotal s2 k + 1 = kindTotal s k) ∧
      (∀ k', k' ∉ wanted → kindTotal s2 k' = kindTotal s k') := by
  intro wanted
  induction wanted with
  | nil =>
    intro s basket ks hWF _ _
    exact ⟨s, rfl, hWF, rfl, by simp, fun _ _ => rfl⟩
  | cons k rest ih =>
    intro s basket ks hWF hnd hall
    have hfindk : (s.find_resource_slot k).isSome = true := hall k (by simp)
    obtain ⟨i, hfind⟩ := Option.isSome_iff_exists.mp hfindk
    obtain ⟨hlt, halloc⟩ := find_resource_slot_some s k i hfind
    set sl := s.slots.get ⟨i, hlt⟩ with hsl
    have hmem : sl ∈ s.slots := by
      rw [hsl]
      exact List.get_mem s.slots i hlt
    have hslWF := hWF.2 sl hmem
    unfold slotWF at hslWF
    rw [halloc] at hslWF
    obtain ⟨idx, it, hsf, hnz, hle, hzx⟩ := hslWF
    have hget : s.slots[i]? = some sl := by
      rw [List.getElem?_eq_getElem hlt]
      rw [hsl]
      rfl
    obtain ⟨sl2, hsl2stock, hsl2alloc, hdeceq⟩ : ∃ sl2,
        sl2.stock = sl.stock.set idx ⟨k, it.count - 1⟩ ∧
        (sl2.allocated_resource_kind = none ∨ sl2.allocated_resource_kind = some k) ∧
        sl.decrement_resource_count k 1 = some (sl2, it.count - 1) := by
      by_cases hz1 : it.count - 1 = 0
      · refine ⟨⟨sl.stock.set idx ⟨k, it.count - 1⟩, none⟩, rfl, Or.inl rfl, ?_⟩
        rw [decrement_eq_of_nonzero sl k 1 idx it hsf hnz halloc, if_pos hz1]
      · refine ⟨⟨sl.stock.set idx ⟨k, it.count - 1⟩, some k⟩, rfl, Or.inr rfl, ?_⟩
        rw [decrement_eq_of_nonzero sl k 1 idx it hsf hnz halloc, if_neg hz1]
    have hprev : s.slot_resource_count i k = some it.count := by
      unfold StorageSlots.slot_resource_count
      simp only [hget]
      unfold StorageSlot.resource_index_and_count
      rw [hsf]
      rfl
    have hdecslot : s.decrement_slot_resource_count i k 1 =
        some ({ s with slots := s.slots.set i sl2 }, it.count - 1) := by
      unfold StorageSlots.decrement_slot_resource_count
      simp only [hget, hdeceq, Option.map_some']
    have hstep : shopTake s basket (k :: rest) ks =
        shopTake { s with slots := s.slots.set i sl2 } (stockAdd basket k) rest (ks ||| k) := by
      simp only [shopTake, hfind, hprev, hdecslot]
      rw [if_pos (show it.count - 1 < it.count by omega)]
    have hWF2 : slotsWF { s with slots := s.slots.set i sl2 } :=
      slotsWF_decrement_slot s i k 1 hWF _ _ hdecslot
    have hknotin : k ∉ rest := (List.nodup_cons.mp hnd).1
    have hndrest : rest.Nodup := (List.nodup_cons.mp hnd).2
    have hfindpres : ∀ k', k' ≠ k →
        StorageSlots.find_resource_slot { s with slots := s.slots.set i sl2 } k' =
          s.find_resource_slot k' := by
      intro k' hk'
      refine find_resource_slot_set_preserved s i sl2 hlt k' ?_ ?_
      · rw [← hsl, halloc]
        intro hc
        exact hk' (Option.some.inj hc).symm
      · rcases hsl2alloc with h | h <;> rw [h]
        · intro hc
          cases hc
        · intro hc
          exact hk' (Option.some.inj hc).symm
    have hall2 : ∀ k' ∈ rest,
        (StorageSlots.find_resource_slot { s with slots := s.slots.set i sl2 } k').isSome
          = true := by
      intro k' hk'
      have hne : k' ≠ k := fun hc => hknotin (hc ▸ hk')
      rw [hfindpres k' hne]
      exact hall k' (by simp [hk'])
    have hstockold : stockCount sl.stock k = it.count := stockCount_eq_of_find _ _ _ _ hsf
    have hstocknew : stockCount sl2.stock k = it.count - 1 := by
      rw [hsl2stock]
      exact stockCount_eq_of_find _ _ _ _ (stockFind_set sl.stock k idx it _ hsf)
    have hstocknewNe : ∀ k', k' ≠ k → stockCount sl2.stock k' = stockCount sl.stock k' := by
      intro k' hk'
      rw [hsl2stock]
      unfold stockCount
      rw [stockFind_set_other sl.stock idx ⟨k, it.count - 1⟩ k' ?_ ?_]
      · intro h
        obtain ⟨hitk, hidxlt, hidxget⟩ := stockFind_some sl.stock k idx it hsf
        have hgi : sl.stock.get ⟨idx, h⟩ = it := hidxget
        rw [hgi, hitk]
        exact fun hc => hk' hc.symm
      · exact fun hc => hk' hc.symm
    have htotk : kindTotal { s with slots := s.slots.set i sl2 } k + 1 = kindTotal s k := by
      show ((s.slots.set i sl2).map (fun sl => stockCount sl.stock k)).sum + 1 =
        (s.slots.map (fun sl => stockCount sl.stock k)).sum
      have hsum := sum_map_set (fun sl => stockCount sl.stock k) s.slots i sl2 hlt
      simp only at hsum
      rw [← hsl, hstockold, hstocknew] at hsum
      omega
    have htotNe : ∀ k', k' ≠ k →
        kindTotal { s with slots := s.slots.set i sl2 } k' = kindTotal s k' := by
      intro k' hk'
      show ((s.slots.set i sl2).map (fun sl => stockCount sl.stock k')).sum =
        (s.slots.map (fun sl => stockCount sl.stock k')).sum
      have hsum := sum_map_set (fun sl => stockCount sl.stock k') s.slots i sl2 hlt
      simp only at hsum
      rw [← hsl, hstocknewNe k' hk'] at hsum
      omega
    obtain ⟨s3, hrun, hWF3, hcap3, htot3, hpres3⟩ :=
      ih { s with slots := s.slots.set i sl2 } (stockAdd basket k) (ks ||| k) hWF2 hndrest hall2
    refine ⟨s3, ?_, hWF3, hcap3, ?_, ?_⟩
    · rw [hstep, hrun]
      rfl
    · intro k0 hk0
      rcases List.mem_cons.mp hk0 with rfl | hk0r
      · rw [hpres3 k0 hknotin, htotk]
      · have hne : k0 ≠ k := fun hc => hknotin (hc ▸ hk0r)
        rw [htot3 k0 hk0r, htotNe k0 hne]
    · intro k' hk'
      have hne : k' ≠ k := fun hc => hk' (by simp [hc])
      have hnr : k' ∉ rest := fun hc => hk' (by simp [hc])
      rw [hpres3 k' hnr, htotNe k' hne]

def c3bad : StorageSlots :=
  ⟨⟨[⟨ResourceKind.Rice, 0⟩, ⟨ResourceKind.Meat, 0⟩], some ResourceKind.Rice⟩ ::
   ⟨[⟨ResourceKind.Rice, 0⟩, ⟨ResourceKind.Meat, 2⟩], some ResourceKind.Meat⟩ ::
   List.replicate 6 ⟨[⟨ResourceKind.Rice, 0⟩, ⟨ResourceKind.Meat, 0⟩], none⟩, 4⟩

def c3badAfter : StorageSlots :=
  ⟨⟨[⟨ResourceKind.Rice, 0⟩, ⟨ResourceKind.Meat, 0⟩], some ResourceKind.Rice⟩ ::
   ⟨[⟨ResourceKind.Rice, 0⟩, ⟨ResourceKind.Meat, 1⟩], some ResourceKind.Meat⟩ ::
   List.replicate 6 ⟨[⟨ResourceKind.Rice, 0⟩, ⟨ResourceKind.Meat, 0⟩], none⟩, 4⟩

/-- Counterexample to C3 as stated: a reachable storage (obtained by
`receive(Rice, 0)` then `receive(Meat, 2)`) holds a slot allocated to Rice
with count 0, so Rice has no allocated nonzero slot; yet
`shop([Rice, Meat], all_or_nothing = true)` does not abort: it returns the
kind-set containing Meat and removes one Meat unit, mutating the storage
and the basket. -/
theorem C3_counterexample :
    runStorageOps c1start [StorageOp.receive ResourceKind.Rice 0,
      StorageOp.receive ResourceKind.Meat 2] = some c3bad ∧
    kindTotal c3bad ResourceKind.Rice = 0 ∧
    StorageBuilding.shop c3bad [] [ResourceKind.Rice, ResourceKind.Meat] true =
      some (c3badAfter, [⟨ResourceKind.Meat, 1⟩], ResourceKind.Meat) ∧
    c3badAfter ≠ c3bad :=
  ⟨by decide, by decide, by decide, by decide⟩

/-- C3 (amended): with `all_or_nothing` set, `shop` aborts — empty kind-set,
storage and basket untouched — exactly when some listed kind has no
allocated slot (the precheck does not verify the count is nonzero); when
every kind of a duplicate-free shopping list has an allocated slot and the
storage satisfies the slot invariant (so allocated slots hold a nonzero
count), it removes exactly one unit of every listed kind, adds each to the
basket, returns the kind-set of the whole list, and leaves every other
kind's total unchanged. In the spec scenario (1 Rice, 0 Meat stored):
`shop([Rice, Meat], true)` returns the empty kind-set and changes nothing,
and `shop([Rice], true)` removes exactly 1 Rice and returns a kind-set
containing Rice. -/
theorem C3_shop_all_or_nothing :
    (∀ (s : StorageSlots) (basket : ResourceStock) (wanted : List ResourceKind),
      (∃ k ∈ wanted, s.find_resource_slot k = none) →
      StorageBuilding.shop s basket wanted true = some (s, basket, 0)) ∧
    (∀ (s : StorageSlots) (basket : ResourceStock) (wanted : List ResourceKind),
      slotsWF s → wanted.Nodup →
      (∀ k ∈ wanted, (s.find_resource_slot k).isSome = true) →
      ∃ s2, StorageBuilding.shop s basket wanted true =
          some (s2, wanted.foldl stockAdd basket, wanted.foldl (fun a k => a ||| k) 0) ∧
        (∀ k ∈ wanted, kindTotal s2 k + 1 = kindTotal s k) ∧
        (∀ k', k' ∉ wanted → kindTotal s2 k' = kindTotal s k')) ∧
    StorageBuilding.shop c1riceOne [] [ResourceKind.Rice, ResourceKind.Meat] true =
      some (c1riceOne, [], 0) ∧
    StorageBuilding.shop c1riceOne [] [ResourceKind.Rice] true =
      some (⟨⟨[⟨ResourceKind.Rice, 0⟩, ⟨ResourceKind.Meat, 0⟩], none⟩ ::
          List.replicate 7 ⟨[⟨ResourceKind.Rice, 0⟩, ⟨ResourceKind.Meat, 0⟩], none⟩, 4⟩,
        [⟨ResourceKind.Rice, 1⟩], ResourceKind.Rice) := by
  refine ⟨?_, ?_, by decide, by decide⟩
  · intro s basket wanted hmiss
    obtain ⟨k, hk, hfind⟩ := hmiss
    have hany : wanted.any (fun k => (s.find_resource_slot k).isNone) = true :=
      List.any_eq_true.mpr ⟨k, hk, by simp [hfind]⟩
    simp [StorageBuilding.shop, hany]
  · intro s basket wanted hWF hnd hall
    have hany : wanted.any (fun k => (s.find_resource_slot k).isNone) = false := by
      rw [List.any_eq_false]
      intro k hk
      have := hall k hk
      simp only [Bool.not_eq_true, Option.isNone_eq_false_iff]
      exact this
    obtain ⟨s2, hrun, _, _, htot, hpres⟩ := shopTake_all_available wanted s basket 0 hWF hnd hall
    exact ⟨s2, by simpa [StorageBuilding.shop, hany] using hrun, htot, hpres⟩

/-- Witness for C3: the abort branch on the 1-Rice storage with Meat listed
(Meat has no slot), and the take branch on the singleton Rice list. -/
theorem C3_shop_all_or_nothing_witness :
    StorageBuilding.shop c1riceOne [] [ResourceKind.Rice, ResourceKind.Meat] true =
      some (c1riceOne, [], 0) ∧
    ∃ s2, StorageBuilding.shop c1riceOne [] [ResourceKind.Rice] true =
        some (s2, [ResourceKind.Rice].foldl stockAdd [],
          [ResourceKind.Rice].foldl (fun a k => a ||| k) 0) ∧
      (∀ k ∈ [ResourceKind.Rice], kindTotal s2 k + 1 = kindTotal c1riceOne k) ∧
      (∀ k', k' ∉ [ResourceKind.Rice] → kindTotal s2 k' = kindTotal c1riceOne k') :=
  ⟨C3_shop_all_or_nothing.1 c1riceOne [] [ResourceKind.Rice, ResourceKind.Meat]
      ⟨ResourceKind.Meat, by decide, by decide⟩,
   C3_shop_all_or_nothing.2.1 c1riceOne [] [ResourceKind.Rice]
      (by
        refine ⟨by decide, ?_⟩
        intro sl hsl
        rcases List.mem_cons.mp hsl with rfl | hsl
        · refine ⟨0, ⟨ResourceKind.Rice, 1⟩, by decide, by decide, by decide, ?_⟩
          intro j hj hj0
          match j with
          | 0 => exact absurd rfl hj0
          | 1 => rfl
          | j + 2 => simp at hj
        · rw [List.eq_of_mem_replicate hsl]
          intro j hj
          match j with
          | 0 => rfl
          | 1 => rfl
          | j + 2 => simp at hj)
      (by decide) (by decide)⟩

-- ----------------------------------------------
-- Unit / UnitSpawnPool (world.rs)
-- ----------------------------------------------

/-- A 2D grid cell (`Cell` of utils/coords; i32 coordinates). -/
abbrev Cell := Int × Int

/-- Modelled from the spec: the reusable `Unit` record of `game/unit` (not
among the sources): a spawned flag, the attachment to its placed tile
(identified by cell), a config reference, and the back-pointer to its pool
slot. -/
structure Unit where
  is_spawned_flag : Bool
  cell : Cell
  config : Nat
  spawn_pool_index : Nat
deriving DecidableEq

def Unit.defaultUnit : Unit := ⟨false, (0, 0), 0, 0⟩

/-- Modelled from the spec: `Unit::new` / `Unit::spawned` (re)initialise the
record for the given tile, config and pool slot. -/
def Unit.newUnit (cell : Cell) (config : Nat) (index : Nat) : Unit :=
  ⟨true, cell, config, index⟩

/-- Modelled from the spec: `Unit::despawned` resets the record to an inert
state. -/
def Unit.despawned (u : Unit) : Unit :=
  { u with is_spawned_flag := false }

def Unit.is_spawned (u : Unit) : Bool := u.is_spawned_flag

structure UnitSpawnPool where
  pool : List Unit
  is_spawned_flags : List Bool
deriving DecidableEq

/-- `UnitSpawnPool::is_valid`: both vectors share one length. -/
abbrev UnitSpawnPool.is_valid (p : UnitSpawnPool) : Prop :=
  p.pool.length = p.is_spawned_flags.length

def UnitSpawnPool.new (capacity : Nat) : UnitSpawnPool :=
  ⟨List.replicate capacity Unit.defaultUnit, List.replicate capacity false⟩

/-- `UnitSpawnPool::try_get`; the outer `none` is the panic of indexing the
live-bit vector (or the record vector) out of bounds. -/
def UnitSpawnPool.try_get (p : UnitSpawnPool) (index : Nat) : Option (Option Unit) :=
  match p.is_spawned_flags[index]? with
  | none => none
  | some false => some none
  | some true =>
    match p.pool[index]? with
    | none => none
    | some u => some (some u)

/-- `UnitSpawnPool::try_get_mut`: the same lookup as `try_get`. -/
def UnitSpawnPool.try_get_mut (p : UnitSpawnPool) (index : Nat) : Option (Option Unit) :=
  match p.is_spawned_flags[index]? with
  | none => none
  | some false => some none
  | some true =>
    match p.pool[index]? with
    | none => none
    | some u => some (some u)

/-- `UnitSpawnPool::spawn`: reinitialise the slot at the first zero bit and
set it; append a new record and a `true` bit when no zero bit exists. -/
def UnitSpawnPool.spawn (p : UnitSpawnPool) (cell : Cell) (config : Nat) :
    Nat × Unit × UnitSpawnPool :=
  match firstIdx (fun b => !b) p.is_spawned_flags with
  | some recycled_pool_index =>
    let u := Unit.newUnit cell config recycled_pool_index
    (recycled_pool_index, u,
      ⟨p.pool.set recycled_pool_index u, p.is_spawned_flags.set recycled_pool_index true⟩)
  | none =>
    let new_pool_index := p.pool.length
    let u := Unit.newUnit cell config new_pool_index
    (new_pool_index, u, ⟨p.pool ++ [u], p.is_spawned_flags ++ [true]⟩)

/-- `UnitSpawnPool::despawn_index`: reset the record to inert and clear the
live bit; the outer `none` is the panic of indexing out of bounds. -/
def UnitSpawnPool.despawn_index (p : UnitSpawnPool) (pool_index : Nat) :
    Option UnitSpawnPool :=
  match p.pool[pool_index]? with
  | none => none
  | some u =>
    if pool_index < p.is_spawned_flags.length then
      some ⟨p.pool.set pool_index u.despawned, p.is_spawned_flags.set pool_index false⟩
    else none

/-- `UnitSpawnPool::despawn(unit)`: despawn the unit's own pool slot. -/
def UnitSpawnPool.despawn (p : UnitSpawnPool) (u : Unit) : Option UnitSpawnPool :=
  p.despawn_index u.spawn_pool_index

inductive PoolOp where
  | spawnOp (cell : Cell) (config : Nat)
  | despawnOp (pool_index : Nat)
deriving DecidableEq

def applyPoolOp (p : UnitSpawnPool) : PoolOp → Option UnitSpawnPool
  | .spawnOp cell config => some (p.spawn cell config).2.2
  | .despawnOp i => p.despawn_index i

def runPoolOps (p : UnitSpawnPool) : List PoolOp → Option UnitSpawnPool
  | [] => some p
  | op :: rest =>
    match applyPoolOp p op with
    | none => none
    | some p2 => runPoolOps p2 rest

theorem try_get_eq_some_some (p : UnitSpawnPool) (i : Nat) (u : Unit)
    (h : p.try_get i = some (some u)) :
    p.is_spawned_flags[i]? = some true ∧ p.pool[i]? = some u := by
  unfold UnitSpawnPool.try_get at h
  cases hf : p.is_spawned_flags[i]? with
  | none => rw [hf] at h; cases h
  | some b =>
    cases b with
    | false => rw [hf] at h; cases h
    | true =>
      rw [hf] at h
      cases hp : p.pool[i]? with
      | none => rw [hp] at h; cases h
      | some u' =>
        rw [hp] at h
        injection h with h'
        injection h' with h''
        rw [h'']
        exact ⟨rfl, rfl⟩

theorem try_get_of_flag_and_pool (p : UnitSpawnPool) (i : Nat) (u : Unit)
    (hf : p.is_spawned_flags[i]? = some true) (hp : p.pool[i]? = some u) :
    p.try_get i = some (some u) := by
  unfold UnitSpawnPool.try_get
  rw [hf, hp]

theorem try_get_step (p : UnitSpawnPool) (i : Nat) (u : Unit) (op : PoolOp)
    (hg : p.try_get i = some (some u)) (hop : op ≠ PoolOp.despawnOp i) :
    ∀ p2, applyPoolOp p op = some p2 → p2.try_get i = some (some u) := by
  obtain ⟨hf, hp⟩ := try_get_eq_some_some p i u hg
  have hilt : i < p.pool.length := by
    by_contra hc
    rw [List.getElem?_eq_none (by omega)] at hp
    cases hp
  have hiltf : i < p.is_spawned_flags.length := by
    by_contra hc
    rw [List.getElem?_eq_none (by omega)] at hf
    cases hf
  intro p2 happ
  cases op with
  | spawnOp cell config =>
    unfold applyPoolOp at happ
    injection happ with happ'
    rw [← happ']
    unfold UnitSpawnPool.spawn
    cases hfz : firstIdx (fun b => !b) p.is_spawned_flags with
    | some j =>
      obtain ⟨hjlt, hpj, _⟩ := firstIdx_eq_some _ _ _ hfz
      have hji : j ≠ i := by
        intro hc
        have h2 : p.is_spawned_flags[j]? = some true := by
          rw [hc]
          exact hf
        have hgetj : p.is_spawned_flags[j] = true := by
          rw [List.getElem?_eq_getElem hjlt] at h2
          exact Option.some.inj h2
        simp [List.get_eq_getElem, hgetj] at hpj
      refine try_get_of_flag_and_pool _ i u ?_ ?_
      · show (p.is_spawned_flags.set j true)[i]? = some true
        rw [List.getElem?_set_ne hji]
        exact hf
      · show (p.pool.set j (Unit.newUnit cell config j))[i]? = some u
        rw [List.getElem?_set_ne hji]
        exact hp
    | none =>
      refine try_get_of_flag_and_pool _ i u ?_ ?_
      · show (p.is_spawned_flags ++ [true])[i]? = some true
        rw [List.getElem?_append, if_pos hiltf]
        exact hf
      · show (p.pool ++ [Unit.newUnit cell config p.pool.length])[i]? = some u
        rw [List.getElem?_append, if_pos hilt]
        exact hp
  | despawnOp j =>
    have hji : j ≠ i := by
      intro hc
      exact hop (by rw [hc])
    unfold applyPoolOp UnitSpawnPool.despawn_index at happ
    cases hpj : p.pool[j]? with
    | none => simp [hpj] at happ
    | some uj =>
      simp only [hpj] at happ
      by_cases hjf : j < p.is_spawned_flags.length
      · rw [if_pos hjf] at happ
        injection happ with happ'
        rw [← happ']
        refine try_get_of_flag_and_pool _ i u ?_ ?_
        · show (p.is_spawned_flags.set j false)[i]? = some true
          rw [List.getElem?_set_ne hji]
          exact hf
        · show (p.pool.set j uj.despawned)[i]? = some u
          rw [List.getElem?_set_ne hji]
          exact hp
      · rw [if_neg hjf] at happ
        cases happ

theorem try_get_preserved : ∀ (ops : List PoolOp) (p : UnitSpawnPool) (i : Nat) (u : Unit),
    p.try_get i = some (some u) → (∀ op ∈ ops, op ≠ PoolOp.despawnOp i) →
    ∀ p2, runPoolOps p ops = some p2 → p2.try_get i = some (some u) := by
  intro ops
  induction ops with
  | nil =>
    intro p i u hg _ p2 hrun
    unfold runPoolOps at hrun
    injection hrun with h'
    rw [← h']
    exact hg
  | cons op rest ih =>
    intro p i u hg hops p2 hrun
    unfold runPoolOps at hrun
    cases happ : applyPoolOp p op with
    | none => rw [happ] at hrun; cases hrun
    | some p3 =>
      rw [happ] at hrun
      exact ih p3 i u (try_get_step p i u op hg (hops op (by simp)) p3 happ)
        (fun o ho => hops o (by simp [ho])) p2 hrun

/-- C6: `spawn` reinitialises the slot at the first zero bit of the live-bit
vector and sets that bit, appending a new record and a new `true` bit only
when no zero bit exists; after `spawn` returns index i, `try_get(i)`
returns that unit under any operations that do not despawn index i; after
`despawn_index(i)` it returns `None`; and a spawn that reuses index i (the
first-zero-bit policy) makes `try_get(i)` return the new unit. -/
theorem C6_unit_spawn_pool (p : UnitSpawnPool) (hv : p.is_valid)
    (cell : Cell) (config : Nat) (i : Nat) :
    (∀ k (hk : k < p.is_spawned_flags.length),
      p.is_spawned_flags.get ⟨k, hk⟩ = false →
      (∀ j (hj : j < p.is_spawned_flags.length), j < k →
        p.is_spawned_flags.get ⟨j, hj⟩ = true) →
      p.spawn cell config = (k, Unit.newUnit cell config k,
        ⟨p.pool.set k (Unit.newUnit cell config k), p.is_spawned_flags.set k true⟩)) ∧
    ((∀ b ∈ p.is_spawned_flags, b = true) →
      p.spawn cell config = (p.pool.length, Unit.newUnit cell config p.pool.length,
        ⟨p.pool ++ [Unit.newUnit cell config p.pool.length], p.is_spawned_flags ++ [true]⟩)) ∧
    (∀ (u : Unit) (ops : List PoolOp) (p2 : UnitSpawnPool),
      p.try_get i = some (some u) →
      (∀ op ∈ ops, op ≠ PoolOp.despawnOp i) →
      runPoolOps p ops = some p2 →
      p2.try_get i = some (some u)) ∧
    (∀ p2, p.despawn_index i = some p2 → p2.try_get i = some none) ∧
    (p.is_spawned_flags[i]? = some false →
      (∀ j (hj : j < p.is_spawned_flags.length), j < i →
        p.is_spawned_flags.get ⟨j, hj⟩ = true) →
      (p.spawn cell config).1 = i ∧
      (p.spawn cell config).2.2.try_get i = some (some (Unit.newUnit cell config i))) := by
  refine ⟨?_, ?_, ?_, ?_, ?_⟩
  · -- spawn reuses the first zero bit
    intro k hk hfalse hmin
    rw [List.get_eq_getElem] at hfalse
    have hfz : firstIdx (fun b => !b) p.is_spawned_flags = some k := by
      refine firstIdx_of_first _ p.is_spawned_flags k hk
        (by simp [List.get_eq_getElem, hfalse]) ?_
      intro j hj hjk
      have hmj := hmin j hj hjk
      rw [List.get_eq_getElem] at hmj
      simp [List.get_eq_getElem, hmj]
    unfold UnitSpawnPool.spawn
    rw [hfz]
  · -- all bits set: append
    intro hall
    have hfz : firstIdx (fun b => !b) p.is_spawned_flags = none := by
      rw [firstIdx_eq_none]
      intro b hb
      simp [hall b hb]
    unfold UnitSpawnPool.spawn
    rw [hfz]
  · -- index stability
    intro u ops p2 hg hops hrun
    exact try_get_preserved ops p i u hg hops p2 hrun
  · -- despawn clears the slot
    intro p2 hdesp
    unfold UnitSpawnPool.despawn_index at hdesp
    cases hpi : p.pool[i]? with
    | none => simp [hpi] at hdesp
    | some u =>
      simp only [hpi] at hdesp
      by_cases hif : i < p.is_spawned_flags.length
      · rw [if_pos hif] at hdesp
        injection hdesp with h'
        rw [← h']
        unfold UnitSpawnPool.try_get
        have : (p.is_spawned_flags.set i false)[i]? = some false := by
          rw [List.getElem?_set_self']
          simp [List.getElem?_eq_getElem hif]
        rw [this]
      · rw [if_neg hif] at hdesp
        cases hdesp
  · -- spawn reusing index i yields the new unit at i
    intro hfi hmin
    have hilt : i < p.is_spawned_flags.length := by
      by_contra hc
      rw [List.getElem?_eq_none (by omega)] at hfi
      cases hfi
    have hfz : firstIdx (fun b => !b) p.is_spawned_flags = some i := by
      refine firstIdx_of_first _ p.is_spawned_flags i hilt ?_ ?_
      · have : p.is_spawned_flags[i] = false := by
          rw [List.getElem?_eq_getElem hilt] at hfi
          exact Option.some.inj hfi
        simp [List.get_eq_getElem, this]
      · intro j hj hji
        have hmj := hmin j hj hji
        rw [List.get_eq_getElem] at hmj
        simp [List.get_eq_getElem, hmj]
    constructor
    · unfold UnitSpawnPool.spawn
      rw [hfz]
    · unfold UnitSpawnPool.spawn
      rw [hfz]
      refine try_get_of_flag_and_pool _ i _ ?_ ?_
      · show (p.is_spawned_flags.set i true)[i]? = some true
        rw [List.getElem?_set_self']
        simp [List.getElem?_eq_getElem hilt]
      · show (p.pool.set i (Unit.newUnit cell config i))[i]? = some (Unit.newUnit cell config i)
        have hiltp : i < p.pool.length := by
          rw [hv]
          exact hilt
        rw [List.getElem?_set_self']
        simp [List.getElem?_eq_getElem hiltp]

def c6pool : UnitSpawnPool :=
  ⟨[Unit.newUnit (0, 0) 7 0, Unit.defaultUnit], [true, false]⟩

/-- Witness for C6: in a two-slot pool with slot 0 live and slot 1 free,
a spawn reuses slot 1 (the first zero bit) and `try_get 1` then returns
the new unit; despawning slot 0 makes `try_get 0` return `None`; and the
live unit at slot 0 survives a spawn plus a despawn of slot 1. -/
theorem C6_unit_spawn_pool_witness :
    ((c6pool.spawn (2, 3) 9).1 = 1 ∧
      (c6pool.spawn (2, 3) 9).2.2.try_get 1 = some (some (Unit.newUnit (2, 3) 9 1))) ∧
    (∀ p2, c6pool.despawn_index 0 = some p2 → p2.try_get 0 = some none) ∧
    (⟨[Unit.newUnit (0, 0) 7 0, (Unit.newUnit (5, 5) 3 1).despawned],
        [true, false]⟩ : UnitSpawnPool).try_get 0 = some (some (Unit.newUnit (0, 0) 7 0)) :=
  ⟨(C6_unit_spawn_pool c6pool (by decide) (2, 3) 9 1).2.2.2.2 (by decide)
      (by
        intro j hj hji
        match j with
        | 0 => rfl
        | j + 1 => exact absurd hji (by omega)),
   (C6_unit_spawn_pool c6pool (by decide) (2, 3) 9 0).2.2.2.1,
   (C6_unit_spawn_pool c6pool (by decide) (2, 3) 9 0).2.2.1
      (Unit.newUnit (0, 0) 7 0) [PoolOp.spawnOp (5, 5) 3, PoolOp.despawnOp 1]
      ⟨[Unit.newUnit (0, 0) 7 0, (Unit.newUnit (5, 5) 3 1).despawned], [true, false]⟩
      (by decide) (by decide) (by decide)⟩

/-- `try_get_mut` performs the same lookup as `try_get`. -/
theorem try_get_mut_eq_try_get (p : UnitSpawnPool) (i : Nat) :
    p.try_get_mut i = p.try_get i := rfl

/-- C10: `try_get(i)` and `try_get_mut(i)` return `None` exactly for an
in-bounds index whose live bit is clear; for an index at or past the pool
length they panic (out-of-bounds indexing of the live-bit vector) instead
of returning `None`, so the "None after despawn" guarantee only covers
indices the pool handed out through `spawn`. -/
theorem C10_try_get_out_of_bounds (p : UnitSpawnPool) (hv : p.is_valid) (i : Nat) :
    (p.pool.length ≤ i → p.try_get i = none ∧ p.try_get_mut i = none) ∧
    (p.try_get i = some none ↔ i < p.pool.length ∧ p.is_spawned_flags[i]? = some false) ∧
    (p.try_get_mut i = some none ↔ i < p.pool.length ∧
      p.is_spawned_flags[i]? = some false) := by
  have hoob : p.pool.length ≤ i → p.try_get i = none := by
    intro hge
    unfold UnitSpawnPool.try_get
    rw [List.getElem?_eq_none (show p.is_spawned_flags.length ≤ i by omega)]
  have hiff : p.try_get i = some none ↔
      i < p.pool.length ∧ p.is_spawned_flags[i]? = some false := by
    unfold UnitSpawnPool.try_get
    constructor
    · intro h
      cases hfi : p.is_spawned_flags[i]? with
      | none => rw [hfi] at h; cases h
      | some b =>
        cases b with
        | false =>
          refine ⟨?_, rfl⟩
          have hlt : i < p.is_spawned_flags.length := by
            by_contra hc
            rw [List.getElem?_eq_none (by omega)] at hfi
            cases hfi
          omega
        | true =>
          rw [hfi] at h
          cases hpi : p.pool[i]? with
          | none => rw [hpi] at h; cases h
          | some u => rw [hpi] at h; cases h
    · intro h
      rw [h.2]
  refine ⟨fun hge => ⟨hoob hge, (try_get_mut_eq_try_get p i).trans (hoob hge)⟩, hiff, ?_⟩
  rw [try_get_mut_eq_try_get]
  exact hiff

/-- Witness for C10: the valid two-slot pool panics on index 5. -/
theorem C10_try_get_out_of_bounds_witness :
    c6pool.try_get 5 = none ∧ c6pool.try_get_mut 5 = none :=
  (C10_try_get_out_of_bounds c6pool (by decide) 5).1 (by decide)

-- ----------------------------------------------
-- BuildingKind / GameStateHandle / TileMap (world.rs, config.rs)
-- ----------------------------------------------

/-- The concrete building kinds instantiated by config.rs. -/
inductive BuildingKind where
  | WellSmall
  | WellBig
  | Market
  | House
  | Farm
  | Granary
  | StorageYard
deriving DecidableEq

/-- Modelled from the spec: each `BuildingKind` is one bit of a 32-bit
bitmask (`game/building/mod.rs` is not among the sources; only the
distinctness of the bits is used). -/
def BuildingKind.bits : BuildingKind → Nat
  | .WellSmall => 1
  | .WellBig => 2
  | .Market => 4
  | .House => 8
  | .Farm => 16
  | .Granary => 32
  | .StorageYard => 64

/-- Modelled from the spec: decode a one-bit bitmask back to its kind. -/
def BuildingKind.from_bits (b : Nat) : Option BuildingKind :=
  if b = 1 then some .WellSmall
  else if b = 2 then some .WellBig
  else if b = 4 then some .Market
  else if b = 8 then some .House
  else if b = 16 then some .Farm
  else if b = 32 then some .Granary
  else if b = 64 then some .StorageYard
  else none

inductive BuildingArchetypeKind where
  | Producer
  | Storage
  | Service
  | House
deriving DecidableEq

/-- The kind-to-archetype mapping used by config.rs instantiation. -/
def BuildingKind.archetype_kind : BuildingKind → BuildingArchetypeKind
  | .WellSmall => .Service
  | .WellBig => .Service
  | .Market => .Service
  | .House => .House
  | .Farm => .Producer
  | .Granary => .Storage
  | .StorageYard => .Storage

/-- Modelled from the spec: the per-tile (slot index, kind tag) payload; a
handle is valid iff its index is not the sentinel invalid value (embedded
as the Int -1). -/
structure GameStateHandle where
  index : Int
  kind : Nat
deriving DecidableEq

def GameStateHandle.invalid : GameStateHandle := ⟨-1, 0⟩

def GameStateHandle.new (index : Nat) (kind : Nat) : GameStateHandle := ⟨index, kind⟩

def GameStateHandle.is_valid (h : GameStateHandle) : Bool := decide (h.index ≠ -1)

def BuildingKind.from_game_state_handle (h : GameStateHandle) : Option BuildingKind :=
  BuildingKind.from_bits h.kind

/-- `World::UNIT_GAME_STATE_KIND`. -/
def UNIT_GAME_STATE_KIND : Nat := 0xABCD1234

/-- TileKind bits for the Objects-layer filters the core uses. -/
def TK_BUILDING : Nat := 1

def TK_UNIT : Nat := 2

structure TileDef where
  name : String
  kind : Nat
deriving DecidableEq

/-- Modelled from the spec: an Objects-layer tile as the core observes it:
cell, TileKind bits, name, and the game-state handle payload. -/
structure Tile where
  cell : Cell
  kind : Nat
  name : String
  game_state : GameStateHandle
deriving DecidableEq

/-- Modelled from the spec: the Objects layer of the tile map. -/
abbrev TileMap := List Tile

/-- Modelled from the spec: `find_tile(cell, layer, kind_filter)` on the
Objects layer. -/
def find_tile (m : TileMap) (cell : Cell) (kinds : Nat) : Option Tile :=
  m.find? (fun t => t.cell == cell && (t.kind &&& kinds) != 0)

/-- Modelled from the spec: `try_clear_tile_from_layer` fails when no tile
occupies the cell, else removes the cell's tile. -/
def try_clear_tile_from_layer (m : TileMap) (cell : Cell) : Except String TileMap :=
  if (m.find? (fun t => t.cell == cell)).isSome then
    Except.ok (m.filter (fun t => !(t.cell == cell)))
  else Except.error "No tile to clear at the given cell!"

/-- Modelled from the spec: `try_place_tile` rejects an occupied cell, else
appends a fresh tile carrying an invalid handle. -/
def try_place_tile (m : TileMap) (cell : Cell) (tile_def : TileDef) :
    Except String TileMap :=
  if (m.find? (fun t => t.cell == cell)).isSome then
    Except.error "Cell already occupied!"
  else Except.ok (m ++ [⟨cell, tile_def.kind, tile_def.name, GameStateHandle.invalid⟩])

/-- Modelled from the spec: `Tile::set_game_state_handle` on the cell's
tile. -/
def set_game_state_handle (m : TileMap) (cell : Cell) (h : GameStateHandle) : TileMap :=
  m.map (fun t => if t.cell == cell then { t with game_state := h } else t)

-- ----------------------------------------------
-- BuildingList / World (world.rs)
-- ----------------------------------------------

structure Building where
  kind : BuildingKind
  base_cell : Cell
deriving DecidableEq

/-- A building list is a slotted collection (the `slab` crate): stable
indices, vacant slots reused. No claim depends on which vacant slot an
insert reuses; it is modelled as first-vacant. -/
abbrev BuildingList := List (Option Building)

def slabInsert (l : BuildingList) (b : Building) : Nat × BuildingList :=
  match firstIdx (fun e => e.isNone) l with
  | some i => (i, l.set i (some b))
  | none => (l.length, l ++ [some b])

/-- `BuildingList::try_get`. -/
def slabTryGet (l : BuildingList) (i : Nat) : Option Building :=
  (l[i]?).bind id

/-- `BuildingList::remove` (`slab::try_remove`): error when the index is
vacant or out of bounds. -/
def slabRemove (l : BuildingList) (i : Nat) : Except String BuildingList :=
  match (l[i]?).bind id with
  | some _ => Except.ok (l.set i none)
  | none => Except.error "Slab index is already vacant!"

structure World where
  producers : BuildingList
  storages : BuildingList
  services : BuildingList
  houses : BuildingList
  unit_spawn_pool : UnitSpawnPool
deriving DecidableEq

def World.buildings_list (w : World) : BuildingArchetypeKind → BuildingList
  | .Producer => w.producers
  | .Storage => w.storages
  | .Service => w.services
  | .House => w.houses

def World.set_buildings_list (w : World) :
    BuildingArchetypeKind → BuildingList → World
  | .Producer, l => { w with producers := l }
  | .Storage, l => { w with storages := l }
  | .Service, l => { w with services := l }
  | .House, l => { w with houses := l }

/-- `building::config::instantiate` (config.rs): map the tile name to a
building of the corresponding kind, `None` for unknown tiles. -/
def instantiate (t : Tile) : Option Building :=
  if t.name = "well_small" then some ⟨.WellSmall, t.cell⟩
  else if t.name = "well_big" then some ⟨.WellBig, t.cell⟩
  else if t.name = "market" then some ⟨.Market, t.cell⟩
  else if t.name = "house0" then some ⟨.House, t.cell⟩
  else if t.name = "rice_farm" then some ⟨.Farm, t.cell⟩
  else if t.name = "livestock_farm" then some ⟨.Farm, t.cell⟩
  else if t.name = "granary" then some ⟨.Granary, t.cell⟩
  else if t.name = "storage_yard" then some ⟨.StorageYard, t.cell⟩
  else none

/-- `World::try_spawn_building_with_tile_def`: place the tile, instantiate
the building, add it to its archetype list and publish the returned index
into the tile's handle before returning. On an instantiation failure the
placed tile remains, as in the code. -/
def World.try_spawn_building_with_tile_def (w : World) (m : TileMap)
    (target_cell : Cell) (tile_def : TileDef) :
    Except String Nat × World × TileMap :=
  match try_place_tile m target_cell tile_def with
  | .error err => (.error err, w, m)
  | .ok m1 =>
    match instantiate ⟨target_cell, tile_def.kind, tile_def.name, GameStateHandle.invalid⟩ with
    | none => (.error "Failed to instantiate Building!", w, m1)
    | some b =>
      let p := slabInsert (w.buildings_list b.kind.archetype_kind) b
      (.ok p.1, w.set_buildings_list b.kind.archetype_kind p.2,
        set_game_state_handle m1 target_cell (GameStateHandle.new p.1 b.kind.bits))

/-- `World::despawn_building`: find and validate the associated tile, clear
the tile from the layer first, then remove the building instance; the
outer `none` is the panic of an undecodable kind tag in the handle. -/
def World.despawn_building (w : World) (m : TileMap) (building : Building) :
    Option (Except String PUnit.{1} × World × TileMap) :=
  match find_tile m building.base_cell TK_BUILDING with
  | none => some (.error "Building should have an associated Tile in the TileMap!", w, m)
  | some tile =>
    if ¬ tile.game_state.is_valid then
      some (.error "Building tile should have a valid game state!", w, m)
    else
      match try_clear_tile_from_layer m building.base_cell with
      | .error err => some (.error err, w, m)
      | .ok m1 =>
        match BuildingKind.from_game_state_handle tile.game_state with
        | none => none
        | some building_kind =>
          match slabRemove (w.buildings_list building_kind.archetype_kind)
              tile.game_state.index.toNat with
          | .error err => some (.error err, w, m1)
          | .ok l1 =>
            some (.ok PUnit.unit,
              w.set_buildings_list building_kind.archetype_kind l1, m1)

/-- `World::despawn_building_at_cell` (same sequence keyed by cell). -/
def World.despawn_building_at_cell (w : World) (m : TileMap) (tile_base_cell : Cell) :
    Option (Except String PUnit.{1} × World × TileMap) :=
  match find_tile m tile_base_cell TK_BUILDING with
  | none => some (.error "Building should have an associated Tile in the TileMap!", w, m)
  | some tile =>
    if ¬ tile.game_state.is_valid then
      some (.error "Building tile should have a valid game state!", w, m)
    else
      match try_clear_tile_from_layer m tile_base_cell with
      | .error err => some (.error err, w, m)
      | .ok m1 =>
        match BuildingKind.from_game_state_handle tile.game_state with
        | none => none
        | some building_kind =>
          match slabRemove (w.buildings_list building_kind.archetype_kind)
              tile.game_state.index.toNat with
          | .error err => some (.error err, w, m1)
          | .ok l1 =>
            some (.ok PUnit.unit,
              w.set_buildings_list building_kind.archetype_kind l1, m1)

/-- `World::despawn_unit`: find and validate the unit's tile, clear the tile
first, then put the unit back into the spawn pool; the outer `none` is the
pool's out-of-bounds panic. -/
def World.despawn_unit (w : World) (m : TileMap) (u : Unit) :
    Option (Except String PUnit.{1} × World × TileMap) :=
  match find_tile m u.cell TK_UNIT with
  | none => some (.error "Unit should have an associated Tile in the TileMap!", w, m)
  | some tile =>
    if ¬ tile.game_state.is_valid then
      some (.error "Unit tile should have a valid game state!", w, m)
    else
      match try_clear_tile_from_layer m u.cell with
      | .error err => some (.error err, w, m)
      | .ok m1 =>
        (w.unit_spawn_pool.despawn u).map
          (fun pool1 => (.ok PUnit.unit, { w with unit_spawn_pool := pool1 }, m1))

/-- `World::despawn_unit_at_cell` (keyed by cell, slot taken from the
handle). -/
def World.despawn_unit_at_cell (w : World) (m : TileMap) (tile_base_cell : Cell) :
    Option (Except String PUnit.{1} × World × TileMap) :=
  match find_tile m tile_base_cell TK_UNIT with
  | none => some (.error "Unit should have an associated Tile in the TileMap!", w, m)
  | some tile =>
    if ¬ tile.game_state.is_valid then
      some (.error "Unit tile should have a valid game state!", w, m)
    else
      match try_clear_tile_from_layer m tile_base_cell with
      | .error err => some (.error err, w, m)
      | .ok m1 =>
        (w.unit_spawn_pool.despawn_index tile.game_state.index.toNat).map
          (fun pool1 => (.ok PUnit.unit, { w with unit_spawn_pool := pool1 }, m1))

/-- `World::find_building_for_tile` (read-only): decode the handle's tag to
pick the archetype list and index directly. -/
def World.find_building_for_tile (w : World) (t : Tile) : Option Building :=
  if t.game_state.is_valid then
    match BuildingKind.from_game_state_handle t.game_state with
    | some building_kind =>
      slabTryGet (w.buildings_list building_kind.archetype_kind) t.game_state.index.toNat
    | none => none
  else none
theorem find_tile_clear (m : TileMap) (cell : Cell) (m1 : TileMap)
    (h : try_clear_tile_from_layer m cell = .ok m1) (kinds : Nat) :
    find_tile m1 cell kinds = none := by
  unfold try_clear_tile_from_layer at h
  by_cases hf : (m.find? (fun t => t.cell == cell)).isSome
  · rw [if_pos hf] at h
    injection h with h'
    rw [← h']
    unfold find_tile
    rw [List.find?_eq_none]
    intro t ht
    have hmem := List.of_mem_filter ht
    simp only [Bool.not_eq_true'] at hmem
    simp [hmem]
  · rw [if_neg hf] at h
    cases h

/-- The despawn contract of the claim, for one despawn entry point keyed by
an argument locating the tile: failures of the tile lookup or the
handle-validity check surface an error with nothing changed; every error
outcome leaves the core side (`World`) untouched; and a successful
despawn has already cleared the tile's layer entry. -/
def DespawnContract {α : Type}
    (f : World → TileMap → α → Option (Except String PUnit.{1} × World × TileMap))
    (cellOf : α → Cell) (tk : Nat) : Prop :=
  ∀ (w : World) (m : TileMap) (x : α),
    (find_tile m (cellOf x) tk = none → ∃ e, f w m x = some (.error e, w, m)) ∧
    (∀ tile, find_tile m (cellOf x) tk = some tile →
      tile.game_state.is_valid = false → ∃ e, f w m x = some (.error e, w, m)) ∧
    (∀ e w' m', f w m x = some (.error e, w', m') → w' = w) ∧
    (∀ w' m', f w m x = some (.ok PUnit.unit, w', m') → find_tile m' (cellOf x) tk = none)

theorem despawn_building_contract :
    DespawnContract World.despawn_building (fun b => b.base_cell) TK_BUILDING := by
  intro w m b
  refine ⟨?_, ?_, ?_, ?_⟩
  · intro hfind
    exact ⟨"Building should have an associated Tile in the TileMap!",
      by simp only [World.despawn_building, hfind]⟩
  · intro tile hfind hvalid
    refine ⟨"Building tile should have a valid game state!", ?_⟩
    simp [World.despawn_building, hfind, hvalid]
  · intro e w' m' h
    unfold World.despawn_building at h
    cases hfind : find_tile m b.base_cell TK_BUILDING with
    | none =>
      simp only [hfind, Option.some.injEq, Prod.mk.injEq] at h
      exact h.2.1.symm
    | some tile =>
      simp only [hfind] at h
      by_cases hv : tile.game_state.is_valid
      · rw [if_neg (not_not_intro hv)] at h
        cases hclear : try_clear_tile_from_layer m b.base_cell with
        | error err =>
          simp only [hclear, Option.some.injEq, Prod.mk.injEq] at h
          exact h.2.1.symm
        | ok m1 =>
          simp only [hclear] at h
          cases hdec : BuildingKind.from_game_state_handle tile.game_state with
          | none => simp [hdec] at h
          | some bk =>
            simp only [hdec] at h
            cases hrem : slabRemove (w.buildings_list bk.archetype_kind)
                tile.game_state.index.toNat with
            | error err =>
              simp only [hrem, Option.some.injEq, Prod.mk.injEq] at h
              exact h.2.1.symm
            | ok l1 => simp [hrem] at h
      · rw [if_pos hv] at h
        simp only [Option.some.injEq, Prod.mk.injEq] at h
        exact h.2.1.symm
  · intro w' m' h
    unfold World.despawn_building at h
    cases hfind : find_tile m b.base_cell TK_BUILDING with
    | none => simp [hfind] at h
    | some tile =>
      simp only [hfind] at h
      by_cases hv : tile.game_state.is_valid
      · rw [if_neg (not_not_intro hv)] at h
        cases hclear : try_clear_tile_from_layer m b.base_cell with
        | error err => simp [hclear] at h
        | ok m1 =>
          simp only [hclear] at h
          cases hdec : BuildingKind.from_game_state_handle tile.game_state with
          | none => simp [hdec] at h
          | some bk =>
            simp only [hdec] at h
            cases hrem : slabRemove (w.buildings_list bk.archetype_kind)
                tile.game_state.index.toNat with
            | error err => simp [hrem] at h
            | ok l1 =>
              simp only [hrem, Option.some.injEq, Prod.mk.injEq] at h
              rw [← h.2.2]
              exact find_tile_clear m b.base_cell m1 hclear TK_BUILDING
      · rw [if_pos hv] at h
        simp at h
theorem despawn_building_at_cell_contract :
    DespawnContract World.despawn_building_at_cell (fun c => c) TK_BUILDING := by
  intro w m c
  refine ⟨?_, ?_, ?_, ?_⟩
  · intro hfind
    exact ⟨"Building should have an associated Tile in the TileMap!",
      by simp only [World.despawn_building_at_cell, hfind]⟩
  · intro tile hfind hvalid
    refine ⟨"Building tile should have a valid game state!", ?_⟩
    simp [World.despawn_building_at_cell, hfind, hvalid]
  · intro e w' m' h
    unfold World.despawn_building_at_cell at h
    cases hfind : find_tile m c TK_BUILDING with
    | none =>
      simp only [hfind, Option.some.injEq, Prod.mk.injEq] at h
      exact h.2.1.symm
    | some tile =>
      simp only [hfind] at h
      by_cases hv : tile.game_state.is_valid
      · rw [if_neg (not_not_intro hv)] at h
        cases hclear : try_clear_tile_from_layer m c with
        | error err =>
          simp only [hclear, Option.some.injEq, Prod.mk.injEq] at h
          exact h.2.1.symm
        | ok m1 =>
          simp only [hclear] at h
          cases hdec : BuildingKind.from_game_state_handle tile.game_state with
          | none => simp [hdec] at h
          | some bk =>
            simp only [hdec] at h
            cases hrem : slabRemove (w.buildings_list bk.archetype_kind)
                tile.game_state.index.toNat with
            | error err =>
              simp only [hrem, Option.some.injEq, Prod.mk.injEq] at h
              exact h.2.1.symm
            | ok l1 => simp [hrem] at h
      · rw [if_pos hv] at h
        simp only [Option.some.injEq, Prod.mk.injEq] at h
        exact h.2.1.symm
  · intro w' m' h
    unfold World.despawn_building_at_cell at h
    cases hfind : find_tile m c TK_BUILDING with
    | none => simp [hfind] at h
    | some tile =>
      simp only [hfind] at h
      by_cases hv : tile.game_state.is_valid
      · rw [if_neg (not_not_intro hv)] at h
        cases hclear : try_clear_tile_from_layer m c with
        | error err => simp [hclear] at h
        | ok m1 =>
          simp only [hclear] at h
          cases hdec : BuildingKind.from_game_state_handle tile.game_state with
          | none => simp [hdec] at h
          | some bk =>
            simp only [hdec] at h
            cases hrem : slabRemove (w.buildings_list bk.archetype_kind)
                tile.game_state.index.toNat with
            | error err => simp [hrem] at h
            | ok l1 =>
              simp only [hrem, Option.some.injEq, Prod.mk.injEq] at h
              rw [← h.2.2]
              exact find_tile_clear m c m1 hclear TK_BUILDING
      · rw [if_pos hv] at h
        simp at h

theorem despawn_unit_contract :
    DespawnContract World.despawn_unit (fun u => u.cell) TK_UNIT := by
  intro w m u
  refine ⟨?_, ?_, ?_, ?_⟩
  · intro hfind
    exact ⟨"Unit should have an associated Tile in the TileMap!",
      by simp only [World.despawn_unit, hfind]⟩
  · intro tile hfind hvalid
    refine ⟨"Unit tile should have a valid game state!", ?_⟩
    simp [World.despawn_unit, hfind, hvalid]
  · intro e w' m' h
    unfold World.despawn_unit at h
    cases hfind : find_tile m u.cell TK_UNIT with
    | none =>
      simp only [hfind, Option.some.injEq, Prod.mk.injEq] at h
      exact h.2.1.symm
    | some tile =>
      simp only [hfind] at h
      by_cases hv : tile.game_state.is_valid
      · rw [if_neg (not_not_intro hv)] at h
        cases hclear : try_clear_tile_from_layer m u.cell with
        | error err =>
          simp only [hclear, Option.some.injEq, Prod.mk.injEq] at h
          exact h.2.1.symm
        | ok m1 =>
          simp only [hclear] at h
          cases hp : w.unit_spawn_pool.despawn u with
          | none => simp [hp] at h
          | some pool1 => simp [hp] at h
      · rw [if_pos hv] at h
        simp only [Option.some.injEq, Prod.mk.injEq] at h
        exact h.2.1.symm
  · intro w' m' h
    unfold World.despawn_unit at h
    cases hfind : find_tile m u.cell TK_UNIT with
    | none => simp [hfind] at h
    | some tile =>
      simp only [hfind] at h
      by_cases hv : tile.game_state.is_valid
      · rw [if_neg (not_not_intro hv)] at h
        cases hclear : try_clear_tile_from_layer m u.cell with
        | error err => simp [hclear] at h
        | ok m1 =>
          simp only [hclear] at h
          cases hp : w.unit_spawn_pool.despawn u with
          | none => simp [hp] at h
          | some pool1 =>
            simp only [hp, Option.map_some', Option.some.injEq, Prod.mk.injEq] at h
            rw [← h.2.2]
            exact find_tile_clear m u.cell m1 hclear TK_UNIT
      · rw [if_pos hv] at h
        simp at h

theorem despawn_unit_at_cell_contract :
    DespawnContract World.despawn_unit_at_cell (fun c => c) TK_UNIT := by
  intro w m c
  refine ⟨?_, ?_, ?_, ?_⟩
  · intro hfind
    exact ⟨"Unit should have an associated Tile in the TileMap!",
      by simp only [World.despawn_unit_at_cell, hfind]⟩
  · intro tile hfind hvalid
    refine ⟨"Unit tile should have a valid game state!", ?_⟩
    simp [World.despawn_unit_at_cell, hfind, hvalid]
  · intro e w' m' h
    unfold World.despawn_unit_at_cell at h
    cases hfind : find_tile m c TK_UNIT with
    | none =>
      simp only [hfind, Option.some.injEq, Prod.mk.injEq] at h
      exact h.2.1.symm
    | some tile =>
      simp only [hfind] at h
      by_cases hv : tile.game_state.is_valid
      · rw [if_neg (not_not_intro hv)] at h
        cases hclear : try_clear_tile_from_layer m c with
        | error err =>
          simp only [hclear, Option.some.injEq, Prod.mk.injEq] at h
          exact h.2.1.symm
        | ok m1 =>
          simp only [hclear] at h
          cases hp : w.unit_spawn_pool.despawn_index tile.game_state.index.toNat with
          | none => simp [hp] at h
          | some pool1 => simp [hp] at h
      · rw [if_pos hv] at h
        simp only [Option.some.injEq, Prod.mk.injEq] at h
        exact h.2.1.symm
  · intro w' m' h
    unfold World.despawn_unit_at_cell at h
    cases hfind : find_tile m c TK_UNIT with
    | none => simp [hfind] at h
    | some tile =>
      simp only [hfind] at h
      by_cases hv : tile.game_state.is_valid
      · rw [if_neg (not_not_intro hv)] at h
        cases hclear : try_clear_tile_from_layer m c with
        | error err => simp [hclear] at h
        | ok m1 =>
          simp only [hclear] at h
          cases hp : w.unit_spawn_pool.despawn_index tile.game_state.index.toNat with
          | none => simp [hp] at h
          | some pool1 =>
            simp only [hp, Option.map_some', Option.some.injEq, Prod.mk.injEq] at h
            rw [← h.2.2]
            exact find_tile_clear m c m1 hclear TK_UNIT
      · rw [if_pos hv] at h
        simp at h

/-- C7: every despawn operation (`despawn_building`,
`despawn_building_at_cell`, `despawn_unit`, `despawn_unit_at_cell`) clears
the tile's layer entry first and only then releases the core-side storage:
a failing tile lookup or handle-validity check returns an error with world
and map untouched, every error outcome leaves the core-side `World`
unchanged, and any successful despawn has already removed the tile. -/
theorem C7_despawn_two_phase :
    DespawnContract World.despawn_building (fun b => b.base_cell) TK_BUILDING ∧
    DespawnContract World.despawn_building_at_cell (fun c => c) TK_BUILDING ∧
    DespawnContract World.despawn_unit (fun u => u.cell) TK_UNIT ∧
    DespawnContract World.despawn_unit_at_cell (fun c => c) TK_UNIT :=
  ⟨despawn_building_contract, despawn_building_at_cell_contract,
   despawn_unit_contract, despawn_unit_at_cell_contract⟩

def emptyWorld : World := ⟨[], [], [], [], UnitSpawnPool.new 0⟩

/-- Witness for C7: despawning a building with no associated tile in an
empty map errors out and leaves world and map untouched. -/
theorem C7_despawn_two_phase_witness :
    ∃ e, World.despawn_building emptyWorld [] ⟨BuildingKind.House, (0, 0)⟩ =
      some (.error e, emptyWorld, []) :=
  (C7_despawn_two_phase.1 emptyWorld [] ⟨BuildingKind.House, (0, 0)⟩).1 rfl
theorem from_bits_bits (k : BuildingKind) : BuildingKind.from_bits k.bits = some k := by
  cases k <;> rfl

theorem slabInsert_tryGet (l : BuildingList) (b : Building) :
    slabTryGet (slabInsert l b).2 (slabInsert l b).1 = some b := by
  unfold slabInsert
  cases hfi : firstIdx (fun e => e.isNone) l with
  | some i =>
    obtain ⟨hlt, _, _⟩ := firstIdx_eq_some _ _ _ hfi
    unfold slabTryGet
    simp only
    rw [List.getElem?_set_self']
    simp [List.getElem?_eq_getElem hlt]
  | none =>
    unfold slabTryGet
    simp only
    rw [List.getElem?_append_right (le_refl _)]
    simp

theorem find?_append_of_none {α : Type} (p : α → Bool) :
    ∀ (l l' : List α), (∀ x ∈ l, ¬ p x = true) → (l ++ l').find? p = l'.find? p := by
  intro l
  induction l with
  | nil => intro l' _; rfl
  | cons a rest ih =>
    intro l' hnp
    have ha : p a = false := by
      have hpa' := hnp a (by simp)
      cases hpa : p a with
      | false => rfl
      | true => exact absurd hpa hpa'
    rw [List.cons_append]
    simp only [List.find?_cons, ha]
    exact ih l' (fun x hx => hnp x (by simp [hx]))

theorem buildings_list_set (w : World) (ak : BuildingArchetypeKind) (l : BuildingList) :
    (w.set_buildings_list ak l).buildings_list ak = l := by
  cases ak <;> rfl

/-- C8: a successful `try_spawn_building_with_tile_def` of a building tile
stores the index returned by the archetype list's `add` into the tile's
handle together with the kind's bitmask before returning, so the tile's
handle is valid, `BuildingKind::from_game_state_handle` reads the kind
back, and the building sits at that index of its archetype list; a
subsequent despawn at the cell succeeds and removes the tile, leaving no
handle-carrying tile behind. -/
theorem C8_handle_round_trip (w : World) (m : TileMap) (cell : Cell) (tdef : TileDef)
    (hkind : tdef.kind = TK_BUILDING) (idx : Nat) (w1 : World) (m1 : TileMap)
    (hspawn : w.try_spawn_building_with_tile_def m cell tdef = (.ok idx, w1, m1)) :
    ∃ t b,
      instantiate ⟨cell, tdef.kind, tdef.name, GameStateHandle.invalid⟩ = some b ∧
      find_tile m1 cell TK_BUILDING = some t ∧
      t.game_state = GameStateHandle.new idx b.kind.bits ∧
      t.game_state.is_valid = true ∧
      BuildingKind.from_game_state_handle t.game_state = some b.kind ∧
      slabTryGet (w1.buildings_list b.kind.archetype_kind) idx = some b ∧
      ∃ w2 m2, w1.despawn_building_at_cell m1 cell = some (.ok PUnit.unit, w2, m2) ∧
        find_tile m2 cell TK_BUILDING = none := by
  unfold World.try_spawn_building_with_tile_def at hspawn
  cases hplace : try_place_tile m cell tdef with
  | error err => simp [hplace] at hspawn
  | ok mp =>
    simp only [hplace] at hspawn
    cases hinst : instantiate ⟨cell, tdef.kind, tdef.name, GameStateHandle.invalid⟩ with
    | none => simp [hinst] at hspawn
    | some b =>
      simp only [hinst, Prod.mk.injEq, Except.ok.injEq] at hspawn
      obtain ⟨hidx, hw1, hm1⟩ := hspawn
      obtain ⟨hunocc, hmp⟩ : (∀ x ∈ m, ¬ (x.cell == cell) = true) ∧
          mp = m ++ [⟨cell, tdef.kind, tdef.name, GameStateHandle.invalid⟩] := by
        unfold try_place_tile at hplace
        by_cases hocc : (m.find? (fun t => t.cell == cell)).isSome
        · rw [if_pos hocc] at hplace
          cases hplace
        · rw [if_neg hocc] at hplace
          injection hplace with h'
          exact ⟨List.find?_eq_none.mp (Option.not_isSome_iff_eq_none.mp hocc), h'.symm⟩
      rw [hidx] at hm1
      have hm1eq : m1 = (m.map (fun t => if t.cell == cell then
            { t with game_state := GameStateHandle.new idx b.kind.bits } else t)) ++
          [⟨cell, tdef.kind, tdef.name, GameStateHandle.new idx b.kind.bits⟩] := by
        rw [← hm1, hmp]
        unfold set_game_state_handle
        rw [List.map_append]
        simp
      have hfmap : ∀ x ∈ m.map (fun t => if t.cell == cell then
            { t with game_state := GameStateHandle.new idx b.kind.bits } else t),
          ¬ (x.cell == cell) = true := by
        intro x hx
        obtain ⟨y, hy, rfl⟩ := List.mem_map.mp hx
        have hyc : ¬ (y.cell == cell) = true := hunocc y hy
        rw [if_neg hyc]
        exact hyc
      have hfmap' : ∀ x ∈ m.map (fun t => if t.cell == cell then
            { t with game_state := GameStateHandle.new idx b.kind.bits } else t),
          ¬ (x.cell == cell && (x.kind &&& TK_BUILDING) != 0) = true := by
        intro x hx
        simp only [Bool.and_eq_true]
        intro hc
        exact hfmap x hx hc.1
      have hfindT : find_tile m1 cell TK_BUILDING =
          some ⟨cell, tdef.kind, tdef.name, GameStateHandle.new idx b.kind.bits⟩ := by
        rw [hm1eq]
        unfold find_tile
        rw [find?_append_of_none _ _ _ hfmap']
        simp [hkind, TK_BUILDING]
      have hvalidT : (GameStateHandle.new idx b.kind.bits).is_valid = true := by
        simp [GameStateHandle.is_valid, GameStateHandle.new]
      have hdecT : BuildingKind.from_game_state_handle
          (GameStateHandle.new idx b.kind.bits) = some b.kind := by
        simp [BuildingKind.from_game_state_handle, GameStateHandle.new, from_bits_bits]
      have hslabget : slabTryGet (w1.buildings_list b.kind.archetype_kind) idx = some b := by
        rw [← hw1, buildings_list_set, ← hidx]
        exact slabInsert_tryGet _ b
      have hm1find : (m1.find? (fun t => t.cell == cell)).isSome = true := by
        rw [hm1eq, find?_append_of_none _ _ _ hfmap]
        simp
      have hclearok : try_clear_tile_from_layer m1 cell =
          .ok (m1.filter (fun t => !(t.cell == cell))) := by
        unfold try_clear_tile_from_layer
        rw [if_pos hm1find]
      refine ⟨⟨cell, tdef.kind, tdef.name, GameStateHandle.new idx b.kind.bits⟩, b,
        rfl, hfindT, rfl, hvalidT, hdecT, hslabget, ?_⟩
      refine ⟨w1.set_buildings_list b.kind.archetype_kind
          ((w1.buildings_list b.kind.archetype_kind).set idx none),
        m1.filter (fun t => !(t.cell == cell)), ?_, ?_⟩
      · simp only [World.despawn_building_at_cell, hfindT]
        rw [if_neg (not_not_intro hvalidT)]
        simp only [hclearok]
        simp only [hdecT]
        have hton : (GameStateHandle.new idx b.kind.bits).index.toNat = idx := by
          simp [GameStateHandle.new]
        rw [hton]
        have hrm : slabRemove (w1.buildings_list b.kind.archetype_kind) idx =
            .ok ((w1.buildings_list b.kind.archetype_kind).set idx none) := by
          unfold slabRemove
          have hb : ((w1.buildings_list b.kind.archetype_kind)[idx]?).bind id = some b :=
            hslabget
          simp only [hb]
        simp only [hrm]
      · exact find_tile_clear m1 cell _ hclearok TK_BUILDING

def c8map0 : TileMap := []

def c8def : TileDef := ⟨"granary", TK_BUILDING⟩

/-- Witness for C8: spawning a granary on an empty map at cell (1, 2). -/
theorem C8_handle_round_trip_witness :
    ∃ t b,
      instantiate ⟨(1, 2), c8def.kind, c8def.name, GameStateHandle.invalid⟩ = some b ∧
      find_tile ((emptyWorld.try_spawn_building_with_tile_def c8map0 (1, 2) c8def).2.2)
        (1, 2) TK_BUILDING = some t ∧
      t.game_state = GameStateHandle.new 0 b.kind.bits ∧
      t.game_state.is_valid = true ∧
      BuildingKind.from_game_state_handle t.game_state = some b.kind ∧
      slabTryGet (((emptyWorld.try_spawn_building_with_tile_def c8map0
        (1, 2) c8def).2.1).buildings_list b.kind.archetype_kind) 0 = some b ∧
      ∃ w2 m2, ((emptyWorld.try_spawn_building_with_tile_def c8map0 (1, 2) c8def).2.1
          ).despawn_building_at_cell
          ((emptyWorld.try_spawn_building_with_tile_def c8map0 (1, 2) c8def).2.2)
          (1, 2) = some (.ok PUnit.unit, w2, m2) ∧
        find_tile m2 (1, 2) TK_BUILDING = none :=
  C8_handle_round_trip emptyWorld c8map0 (1, 2) c8def rfl 0
    (emptyWorld.try_spawn_building_with_tile_def c8map0 (1, 2) c8def).2.1
    (emptyWorld.try_spawn_building_with_tile_def c8map0 (1, 2) c8def).2.2
    (by rfl)


-- ----------------------------------------------
-- Query::calc_search_range / is_near_building / find_nearest_building
-- (src/src/game/sim/mod.rs)
-- ----------------------------------------------

/-- Modelled from the spec: an inclusive rectangular cell range with
corners `start` and `stop` (the source field is named `end`, a Lean
keyword). -/
structure CellRange where
  start : Cell
  stop : Cell
deriving DecidableEq

/-- The inclusive integer interval from a to b as a list, increasing. -/
def intRangeIncl (a b : Int) : List Int :=
  (List.range (b + 1 - a).toNat).map (fun (i : Nat) => a + (i : Int))

/-- Modelled from the spec: iterating `&range` yields every cell of the
inclusive rectangle in row-major order (y rows outer, x inner). -/
def CellRange.cells (r : CellRange) : List Cell :=
  (intRangeIncl r.start.2 r.stop.2).flatMap
    (fun y => (intRangeIncl r.start.1 r.stop.1).map (fun x => (x, y)))

/-- `Query::calc_search_range`: expand the caller's range outward by the
radius in both axes. -/
def Query.calc_search_range (start_cells : CellRange) (radius_in_cells : Int) : CellRange :=
  ⟨(start_cells.start.1 - radius_in_cells, start_cells.start.2 - radius_in_cells),
   (start_cells.stop.1 + radius_in_cells, start_cells.stop.2 + radius_in_cells)⟩

/-- The per-cell test both scan loops perform: the cell holds a
building-layer tile whose handle is valid and decodes to the requested
kind. -/
def buildingMatchAt (m : TileMap) (kind : BuildingKind) (c : Cell) : Bool :=
  match find_tile m c TK_BUILDING with
  | some t =>
    t.game_state.is_valid &&
      decide (BuildingKind.from_game_state_handle t.game_state = some kind)
  | none => false

/-- The shared scan loop of the two queries: walk the window's cells in
order and stop at the first matching tile. -/
def scanForBuilding (m : TileMap) (kind : BuildingKind) : List Cell → Option Tile
  | [] => none
  | c :: rest =>
    if buildingMatchAt m kind c then find_tile m c TK_BUILDING
    else scanForBuilding m kind rest

/-- `Query::is_near_building`: true exactly when the scan over the
expanded window finds a match. -/
def Query.is_near_building (m : TileMap) (start_cells : CellRange)
    (kind : BuildingKind) (radius_in_cells : Int) : Bool :=
  (scanForBuilding m kind (Query.calc_search_range start_cells radius_in_cells).cells).isSome

/-- `Query::find_nearest_building`: the first matching tile's building,
via `find_building_for_tile`. -/
def Query.find_nearest_building (w : World) (m : TileMap) (start_cells : CellRange)
    (kind : BuildingKind) (radius_in_cells : Int) : Option Building :=
  match scanForBuilding m kind (Query.calc_search_range start_cells radius_in_cells).cells with
  | some t => w.find_building_for_tile t
  | none => none

/-- Row-major strict order on cells: earlier row, or same row and smaller
column. -/
def rowMajorLt (a b : Cell) : Prop :=
  a.2 < b.2 ∨ (a.2 = b.2 ∧ a.1 < b.1)

theorem mem_intRangeIncl (a b x : Int) : x ∈ intRangeIncl a b ↔ a ≤ x ∧ x ≤ b := by
  unfold intRangeIncl
  simp only [List.mem_map, List.mem_range]
  constructor
  · rintro ⟨i, hi, rfl⟩
    omega
  · rintro ⟨h1, h2⟩
    exact ⟨(x - a).toNat, by omega, by omega⟩

theorem intRangeIncl_pairwise (a b : Int) :
    List.Pairwise (fun x y : Int => x < y) (intRangeIncl a b) := by
  unfold intRangeIncl
  rw [List.pairwise_map]
  exact (List.pairwise_lt_range _).imp (fun h => by omega)

theorem pairwise_rowMajor_flatMap (ys : List Int) (f : Int → List Cell)
    (hrow : ∀ y, List.Pairwise rowMajorLt (f y))
    (hmem : ∀ y, ∀ c ∈ f y, c.2 = y)
    (hy : List.Pairwise (fun x y : Int => x < y) ys) :
    List.Pairwise rowMajorLt (ys.flatMap f) := by
  induction ys with
  | nil => exact List.Pairwise.nil
  | cons y rest ih =>
    obtain ⟨hylt, hrest⟩ := List.pairwise_cons.mp hy
    rw [List.flatMap_cons]
    refine List.pairwise_append.mpr ⟨hrow y, ih hrest, ?_⟩
    intro a ha b hb
    obtain ⟨z, hz, hb'⟩ := List.mem_flatMap.mp hb
    exact Or.inl (by rw [hmem y a ha, hmem z b hb']; exact hylt z hz)

theorem find_tile_of_match (m : TileMap) (kind : BuildingKind) (c : Cell)
    (h : buildingMatchAt m kind c = true) :
    ∃ t, find_tile m c TK_BUILDING = some t ∧ t.game_state.is_valid = true ∧
      BuildingKind.from_game_state_handle t.game_state = some kind := by
  unfold buildingMatchAt at h
  cases hf : find_tile m c TK_BUILDING with
  | none => simp only [hf] at h; cases h
  | some t =>
    simp only [hf, Bool.and_eq_true, decide_eq_true_eq] at h
    exact ⟨t, rfl, h.1, h.2⟩

theorem scanForBuilding_eq_find (m : TileMap) (kind : BuildingKind) (l : List Cell) :
    scanForBuilding m kind l =
      (l.find? (buildingMatchAt m kind)).bind (fun c => find_tile m c TK_BUILDING) := by
  induction l with
  | nil => rfl
  | cons c rest ih =>
    cases h : buildingMatchAt m kind c with
    | true => simp [scanForBuilding, List.find?_cons, h]
    | false => simp [scanForBuilding, List.find?_cons, h, ih]

def c9map : TileMap :=
  [⟨(0, -3), TK_BUILDING, "market", GameStateHandle.new 0 BuildingKind.Market.bits⟩,
   ⟨(1, 0), TK_BUILDING, "market", GameStateHandle.new 1 BuildingKind.Market.bits⟩]

def c9world : World :=
  ⟨[], [], [some ⟨BuildingKind.Market, (0, -3)⟩, some ⟨BuildingKind.Market, (1, 0)⟩], [],
   UnitSpawnPool.new 0⟩

/-- C9: both queries search the square window obtained by expanding the
caller's range outward by the radius in both axes (first conjunct: window
membership is exactly the expanded bounds), scan its cells in strict
row-major order (second conjunct), and return/report the first match in
that order (third/fourth conjunct: the scan is `find?` over the window's
cell list); with no matching cell they return none/false (fifth
conjunct). The last conjunct shows the result is NOT the geometrically
nearest: from a 1-cell range at the origin with radius 3, the market at
(0, -3) (distance 3, but in an earlier row) is returned even though a
market sits at (1, 0) (distance 1). -/
theorem C9_query_first_match :
    (∀ (s : CellRange) (r : Int) (c : Cell),
        c ∈ (Query.calc_search_range s r).cells ↔
          (s.start.1 - r ≤ c.1 ∧ c.1 ≤ s.stop.1 + r ∧
           s.start.2 - r ≤ c.2 ∧ c.2 ≤ s.stop.2 + r)) ∧
    (∀ (s : CellRange) (r : Int),
        List.Pairwise rowMajorLt (Query.calc_search_range s r).cells) ∧
    (∀ (w : World) (m : TileMap) (s : CellRange) (k : BuildingKind) (r : Int),
        Query.find_nearest_building w m s k r =
          ((Query.calc_search_range s r).cells.find? (buildingMatchAt m k)).bind
            (fun c => (find_tile m c TK_BUILDING).bind w.find_building_for_tile)) ∧
    (∀ (m : TileMap) (s : CellRange) (k : BuildingKind) (r : Int),
        Query.is_near_building m s k r =
          (Query.calc_search_range s r).cells.any (buildingMatchAt m k)) ∧
    (∀ (w : World) (m : TileMap) (s : CellRange) (k : BuildingKind) (r : Int),
        (∀ c ∈ (Query.calc_search_range s r).cells, ¬ buildingMatchAt m k c = true) →
          Query.find_nearest_building w m s k r = none ∧
          Query.is_near_building m s k r = false) ∧
    Query.find_nearest_building c9world c9map ⟨(0, 0), (0, 0)⟩ BuildingKind.Market 3 =
      some ⟨BuildingKind.Market, (0, -3)⟩ := by
  refine ⟨?_, ?_, ?_, ?_, ?_, ?_⟩
  · intro s r c
    unfold Query.calc_search_range CellRange.cells
    simp only [List.mem_flatMap, List.mem_map, mem_intRangeIncl]
    constructor
    · rintro ⟨y, hy, x, hx, rfl⟩
      exact ⟨hx.1, hx.2, hy.1, hy.2⟩
    · rintro ⟨h1, h2, h3, h4⟩
      exact ⟨c.2, ⟨h3, h4⟩, c.1, ⟨h1, h2⟩, rfl⟩
  · intro s r
    unfold CellRange.cells
    refine pairwise_rowMajor_flatMap _ _ ?_ ?_ (intRangeIncl_pairwise _ _)
    · intro y
      rw [List.pairwise_map]
      exact (intRangeIncl_pairwise _ _).imp (fun h => Or.inr ⟨rfl, h⟩)
    · intro y c hc
      obtain ⟨x, _, rfl⟩ := List.mem_map.mp hc
      rfl
  · intro w m s k r
    unfold Query.find_nearest_building
    rw [scanForBuilding_eq_find]
    cases hf : (Query.calc_search_range s r).cells.find? (buildingMatchAt m k) with
    | none => rfl
    | some c =>
      simp only [Option.some_bind]
      cases ht : find_tile m c TK_BUILDING with
      | none => rfl
      | some t => rfl
  · intro m s k r
    unfold Query.is_near_building
    rw [scanForBuilding_eq_find]
    cases hf : (Query.calc_search_range s r).cells.find? (buildingMatchAt m k) with
    | none =>
      have hall := List.find?_eq_none.mp hf
      have hany : (Query.calc_search_range s r).cells.any (buildingMatchAt m k) = false :=
        List.any_eq_false.mpr (fun c hc => hall c hc)
      rw [hany]
      rfl
    | some c =>
      have hc := List.find?_some hf
      have hmem := List.mem_of_find?_eq_some hf
      obtain ⟨t, ht, _, _⟩ := find_tile_of_match m k c hc
      rw [List.any_eq_true.mpr ⟨c, hmem, hc⟩]
      simp [ht]
  · intro w m s k r hno
    have hf : (Query.calc_search_range s r).cells.find? (buildingMatchAt m k) = none :=
      List.find?_eq_none.mpr hno
    constructor
    · unfold Query.find_nearest_building
      rw [scanForBuilding_eq_find, hf]
      rfl
    · unfold Query.is_near_building
      rw [scanForBuilding_eq_find, hf]
      rfl
  · decide

/-- Witness for C9: an empty map has no match anywhere, so the queries
return none and false on a radius-2 window around the origin. -/
theorem C9_query_first_match_witness :
    Query.find_nearest_building emptyWorld [] ⟨(0, 0), (0, 0)⟩ BuildingKind.Market 2 = none ∧
    Query.is_near_building [] ⟨(0, 0), (0, 0)⟩ BuildingKind.Market 2 = false :=
  C9_query_first_match.2.2.2.2.1 emptyWorld [] ⟨(0, 0), (0, 0)⟩ BuildingKind.Market 2
    (by decide)

end CitySim
